import Mathlib

/-!
Verification development for the ATLAS light-curve cleaning and
injection-recovery pipeline (`lightcurve.py`, `simulation_detection.py`).

The Python code operates on pandas DataFrames whose rows carry float-valued
measurement columns and an integer bitmask column `Mask`.  The shallow
embedding below represents

* a DataFrame row as a `Masked α`: a record of the value columns (`data`)
  together with the integer bitmask (`mask : ℕ`);
* a light-curve table as a `List (Masked α)` in row order (positional index
  `j` plays the role of the pandas integer index after `reset_index`);
* float columns as `ℚ` (an optional/NaN-able column as `Option ℚ`);
* Python's index-array helpers (`np.where`, `ix_inrange`, `np.setdiff1d`,
  `ix_unmasked`, ...) as functions returning sorted duplicate-free lists of
  positional indices;
* `mask & ~flag` (clearing the bits of `flag`; Python ints are unbounded, and
  masks are non-negative) as `m ^^^ (m &&& flag)`, which clears exactly the
  bits of `flag` from `m`.
-/

namespace AtlasLC

/-- A table row: the value columns `data` together with the integer bitmask
column `Mask` of the pandas DataFrame. -/
structure Masked (α : Type) where
  data : α
  mask : ℕ
deriving DecidableEq

/-- Embedding of Python's `mask & ~flag` for non-negative `mask`, `flag`:
clears the bits of `flag` from `mask`. -/
def clearFlag (m flag : ℕ) : ℕ := m ^^^ (m &&& flag)

/-- Indices of the rows satisfying a predicate, in increasing order
(the embedding of `np.where(...)` on a row predicate). -/
def ix_where (pred : α → Bool) (rows : List α) : List ℕ :=
  (List.range rows.length).filter fun j =>
    match rows[j]? with
    | some r => pred r
    | none => false

/-- Boolean form of one bound check of `pdastro.ix_inrange`: a value is kept
when it is `≥ lowlim` (or `> lowlim` with `exclude_lowlim`) and `≤ uplim`
(or `< uplim` with `exclude_uplim`); an absent bound always passes.  (On
floats a NaN value fails every comparison; NaN-able columns are modelled as
`Option ℚ` at their use sites.) -/
def inrangeB (lowlim uplim : Option ℚ) (exclude_lowlim exclude_uplim : Bool) (v : ℚ) : Bool :=
  (match lowlim with
   | none => true
   | some l => if exclude_lowlim then decide (l < v) else decide (l ≤ v)) &&
  (match uplim with
   | none => true
   | some u => if exclude_uplim then decide (v < u) else decide (v ≤ u))

/-- Embedding of `pdastro.ix_inrange` on the column read off by `get`. -/
def ix_inrange (get : α → ℚ) (lowlim uplim : Option ℚ)
    (exclude_lowlim exclude_uplim : Bool) (rows : List α) : List ℕ :=
  ix_where (fun r => inrangeB lowlim uplim exclude_lowlim exclude_uplim (get r)) rows

/-- Embedding of `pdastro.ix_unmasked`: indices whose `Mask` has no bit of
`maskval` set. -/
def ix_unmasked (maskval : ℕ) (rows : List (Masked α)) : List ℕ :=
  ix_where (fun r => r.mask &&& maskval == 0) rows

/-- Embedding of `pdastro.ix_masked`: indices whose `Mask` has at least one
bit of `maskval` set. -/
def ix_masked (maskval : ℕ) (rows : List (Masked α)) : List ℕ :=
  ix_where (fun r => r.mask &&& maskval != 0) rows

/-- Embedding of `pdastro.getindices()`: all row indices. -/
def getindices (rows : List α) : List ℕ := List.range rows.length

/-- Embedding of `AnotB` (`np.setdiff1d`) on index arrays.  All index arrays
produced here are increasing and duplicate-free, so set difference is a
filter. -/
def AnotB (A B : List ℕ) : List ℕ := A.filter fun x => !B.contains x

/-- Embedding of `AandB` (`np.intersect1d`) on index arrays. -/
def AandB (A B : List ℕ) : List ℕ := A.filter fun x => B.contains x

/-- Embedding of `LightCurve.update_mask_column(flag, indices, remove_old)`
(`lightcurve.py`): with `remove_old` the bit pattern `flag` is first cleared
from every row's `Mask`, then `flag` is OR-ed into the rows listed in
`indices`. -/
def update_mask_column (flag : ℕ) (indices : List ℕ) (remove_old : Bool)
    (rows : List (Masked α)) : List (Masked α) :=
  rows.mapIdx fun j r =>
    let m := if remove_old then clearFlag r.mask flag else r.mask
    if indices.contains j then ⟨r.data, m ||| flag⟩ else ⟨r.data, m⟩

/-- Body of `LightCurve.apply_cut` after its bound check: computes the kept
(in-range) indices, flags the complement (clearing stale bits of the same
flag first), and reports the cut percentage.  Errors on an empty light
curve, where the percentage computation divides by zero. -/
def apply_cut_go (flag : ℕ) (min_value max_value : Option ℚ)
    (rows : List (Masked ℚ)) : Except Unit (List (Masked ℚ) × ℚ) :=
  let all_ix := getindices rows
  let kept_ix := ix_inrange (·.data) min_value max_value false false rows
  let cut_ix := AnotB all_ix kept_ix
  let rows2 := update_mask_column flag cut_ix true rows
  if rows.length = 0 then .error ()
  else .ok (rows2, 100 * (cut_ix.length : ℚ) / (all_ix.length : ℚ))

/-- Embedding of `LightCurve.apply_cut(column_name, flag, min_value,
max_value)` (`lightcurve.py`).  A row of the target column is a
`Masked ℚ` whose `data` is the value of the cut's target column.  Raises
(`.error`) when both bounds are absent, or when the light curve is empty
(the percentage computation divides by the row count).  Returns the updated
rows and the percentage of rows flagged. -/
def apply_cut (flag : ℕ) (min_value max_value : Option ℚ)
    (rows : List (Masked ℚ)) : Except Unit (List (Masked ℚ) × ℚ) :=
  match min_value, max_value with
  | none, none => .error ()
  | _, _ => apply_cut_go flag min_value max_value rows

/-- Embedding of `pdastro.ix_equal` on the column read off by `get`. -/
def ix_equal (get : α → ℚ) (v : ℚ) (rows : List α) : List ℕ :=
  ix_where (fun r => get r == v) rows

/-- Value columns written by `Supernova.calculate_control_stats` onto the SN
light curve: per-epoch cross-control chi-square (`c2_X2norm`), absolute
signal-to-noise (`c2_abs_stn`), clipped count (`c2_Nclip`) and kept count
(`c2_Ngood`). -/
structure ControlStats where
  c2_X2norm : ℚ
  c2_abs_stn : ℚ
  c2_Nclip : ℚ
  c2_Ngood : ℚ
deriving DecidableEq

/-- The control-consistency `Cut`: its bounds (`params["x2_max"]`, ...), its
sub-flags (`params["x2_flag"]`, ...), the `params["questionable_flag"]`, and
the umbrella `cut.flag`. -/
structure ControlsCut where
  x2_max : ℚ
  stn_max : ℚ
  Nclip_max : ℚ
  Ngood_min : ℚ
  x2_flag : ℕ
  stn_flag : ℕ
  Nclip_flag : ℕ
  Ngood_flag : ℕ
  questionable_flag : ℕ
  flag : ℕ
deriving DecidableEq

/-- Embedding of the `Cut` class (`lightcurve.py`): target column, bounds,
and assigned flag bit.  The free-form `params` map is modelled separately at
each use site (e.g. `ControlsCut`); for `CutList.get_previous_flags` only
`flag` is read. -/
structure Cut where
  column : Option String
  min_value : Option ℚ
  max_value : Option ℚ
  flag : ℕ
deriving DecidableEq

/-- `DEFAULT_CUT_NAMES` (`lightcurve.py`). -/
def DEFAULT_CUT_NAMES : List String :=
  ["uncert_cut", "x2_cut", "controls_cut", "badday_cut", "averaging"]

/-- A `CutList`: the name-keyed ordered dictionary of cuts, as an
association list in insertion order. -/
def CutList : Type := List (String × Cut)

/-- Embedding of `CutList.get_custom_cuts()`: the cuts whose name is neither
a default cut name nor `"uncert_est"`, in insertion order. -/
def get_custom_cuts (cl : List (String × Cut)) : List (String × Cut) :=
  cl.filter fun nc => !(DEFAULT_CUT_NAMES.contains nc.1) && nc.1 != "uncert_est"

/-- An element of the heterogeneous Python list `skip_names` built by
`CutList.get_previous_flags`: either a cut NAME (a string) or a custom-cut
Cut OBJECT (the source appends `get_custom_cuts().values()`, not the
names).  In Python a string never equals a `Cut` object, which the
constructor distinction captures. -/
inductive SkipEntry where
  | name (s : String)
  | cutv (c : Cut)
deriving DecidableEq

/-- The `skip_names` list of `CutList.get_previous_flags`. -/
def skip_names_list (cl : List (String × Cut)) : List SkipEntry :=
  [SkipEntry.name "uncert_est", SkipEntry.name "badday_cut"] ++
    ((get_custom_cuts cl).map fun nc => SkipEntry.cutv nc.2) ++
    [SkipEntry.name "controls_cut", SkipEntry.name "x2_cut", SkipEntry.name "uncert_cut"]

/-- Embedding of `CutList.get_previous_flags(current_cut_name)`
(`lightcurve.py`): finds `current_cut_name` in `skip_names` (raising when it
is absent — the "custom cut" error path), truncates `skip_names` after it,
and ORs the flags of every cut whose NAME is not in the truncated list. -/
def get_previous_flags (cl : List (String × Cut)) (current_cut_name : String) :
    Except Unit ℕ :=
  let skip := skip_names_list cl
  match skip.findIdx? (· == SkipEntry.name current_cut_name) with
  | none => .error ()
  | some current_cut_index =>
    let skip2 := skip.take (current_cut_index + 1)
    .ok (cl.foldl
      (fun mask nc =>
        if skip2.contains (SkipEntry.name nc.1) then mask else mask ||| nc.2.flag) 0)

/-- One row of a `SimDetecTable` (`simulation_detection.py`): the columns
read by `get_efficiency`.  Columns that hold NaN for unfinished or
non-matching trials are `Option ℚ` (`none` = NaN), matching pandas
semantics: `NaN == x` is false and NaN fails every range check. -/
structure SimDetecRow where
  peak_mjd : Option ℚ
  sigma_sim : Option ℚ
  sim_erup_sigma : Option ℚ
  max_fom : Option ℚ
deriving DecidableEq

/-- Embedding of `in_valid_season(mjd, valid_seasons)`
(`simulation_detection.py`): true when some season `[s0, s1]` contains
`mjd`. -/
def in_valid_season (mjd : ℚ) (valid_seasons : List (ℚ × ℚ)) : Bool :=
  valid_seasons.any fun se => decide (mjd ≤ se.2) && decide (se.1 ≤ mjd)

/-- The `sigma_sim` row selection of `SimDetecTable.get_efficiency`: all
rows when no `sigma_sim` is requested, otherwise the rows whose
`sim_erup_sigma` (for a simulated eruption) or `sigma_sim` column equals
the requested value. -/
def sigma_sim_sel (rows : List SimDetecRow) (sigma_sim : Option ℚ) (erup : Bool) : List ℕ :=
  match sigma_sim with
  | none => getindices rows
  | some s =>
    if erup then ix_where (fun r => r.sim_erup_sigma == some s) rows
    else ix_where (fun r => r.sigma_sim == some s) rows

/-- The valid-season restriction of `SimDetecTable.get_efficiency`:
intersects the selection with the rows whose `peak_mjd` lies in a valid
season (a NaN `peak_mjd` is in no season). -/
def season_sel (rows : List SimDetecRow) (ix : List ℕ)
    (valid_seasons : Option (List (ℚ × ℚ))) : List ℕ :=
  match valid_seasons with
  | none => ix
  | some seasons =>
    let mjd_ix := ix_where (fun r =>
      match r.peak_mjd with
      | some m => in_valid_season m seasons
      | none => false) rows
    AandB ix mjd_ix

/-- The detected rows of `SimDetecTable.get_efficiency`:
`ix_inrange(..., "max_fom", lowlim=fom_limit, indices=ix)` — the given
indices whose `max_fom` is at least the threshold (NaN never passes). -/
def detected_sel (rows : List SimDetecRow) (ix : List ℕ) (fom_limit : ℚ) : List ℕ :=
  ix.filter fun j =>
    match rows[j]? with
    | some r =>
      match r.max_fom with
      | some v => decide (fom_limit ≤ v)
      | none => false
    | none => false

/-- Embedding of `SimDetecTable.get_efficiency(fom_limit, valid_seasons,
sigma_sim, erup)` (`simulation_detection.py`).  `.ok none` is the NaN
("undefined") return; `.error ()` is an uncaught `ZeroDivisionError`, which
the source hits when the valid-season restriction empties a non-empty
`sigma_sim` selection (its emptiness guard runs before the season
filter). -/
def get_efficiency (rows : List SimDetecRow) (fom_limit : ℚ)
    (valid_seasons : Option (List (ℚ × ℚ))) (sigma_sim : Option ℚ) (erup : Bool) :
    Except Unit (Option ℚ) :=
  let ix := sigma_sim_sel rows sigma_sim erup
  if ix.length < 1 then .ok none
  else
    let ix2 := season_sel rows ix valid_seasons
    let detected_ix := detected_sel rows ix2 fom_limit
    if ix2.length = 0 then .error ()
    else .ok (some ((detected_ix.length : ℚ) / (ix2.length : ℚ) * 100))

/-- The flux columns of an averaged light-curve row used by
`SimDetecLightCurve.apply_rolling_sum`. -/
structure Flux where
  uJy : ℚ
  duJy : ℚ
deriving DecidableEq

/-- Embedding of `SimDetecLightCurve.apply_rolling_sum(sigma_kern, flag)`
(`lightcurve.py` and `simulation_detection.py`, identical logic) with the
default `indices=None` (all rows).  `conv` abstracts the padded, centered,
Gaussian-weighted rolling sum evaluated at the data positions: its kernel
weights are real-valued exponentials, not representable in `ℚ`, and the
claim is about the `SNR` column written BEFORE that convolution runs.
Returns the `SNR`, `SNRsum` and `SNRsumnorm` columns; errors when the
light curve has no rows. -/
def apply_rolling_sum (conv : List ℚ → List ℚ) (flag : ℕ)
    (rows : List (Masked Flux)) : Except Unit (List ℚ × List ℚ × List ℚ) :=
  let indices := getindices rows
  if indices.length < 1 then .error ()
  else
    let good_ix := AandB indices (ix_unmasked flag rows)
    let snr := (List.range rows.length).map fun j =>
      if good_ix.contains j then
        match rows[j]? with
        | some r => r.data.uJy / r.data.duJy
        | none => 0
      else 0
    let snrsum := conv snr
    let norm := conv (rows.map fun _ => (1 : ℚ))
    let maxnorm := norm.foldl max 0
    let snrsumnorm := (snrsum.zip norm).map fun ab => ab.1 / ab.2 * maxnorm
    .ok (snr, snrsum, snrsumnorm)

/-- A row of an averaged light curve as used by
`SimDetecLightCurve.add_simulation` (`simulation_detection.py`): the loaded
columns plus the simulation columns `uJysim`, `SNRsim`, `SNRsimsum`, which
are `none` when the column is absent/not assigned at that row. -/
structure SimLcRow where
  mjd : ℚ
  uJy : ℚ
  duJy : ℚ
  mask : ℕ
  uJysim : Option ℚ
  snrsim : Option ℚ
  snrsimsum : Option ℚ
deriving DecidableEq

/-- Embedding of `clean_simulations(lc)`: drops the simulation columns. -/
def clean_simulations (lc : List SimLcRow) : List SimLcRow :=
  lc.map fun r => { r with uJysim := none, snrsim := none, snrsimsum := none }

/-- The mutable state of a `SimDetecLightCurve` object, with explicit table
identity: `heap` holds the DataFrames, and `lcs` maps each control index to
the heap address of its stored table.  A Python `deepcopy` allocates a new
address; writing through one address leaves the others untouched, which is
exactly the frame property claim C10 asserts. -/
structure SimDetecState where
  heap : List (List SimLcRow)
  lcs : List ℕ
deriving DecidableEq

/-- Python-side validation of `add_simulation`'s `gaussian`/`eruption`
argument combination (both given, neither given, a gaussian with a missing
`peak_mjd` or an extraneous `peak_appmag`, an eruption with a missing
`peak_mjd` or `peak_appmag` — all raise). -/
def add_simulation_args_ok (peak_mjd : Option ℚ) (use_gaussian use_eruption : Bool)
    (peak_appmag : Option ℚ) : Bool :=
  if use_gaussian && use_eruption then false
  else if !use_gaussian && !use_eruption then false
  else if use_gaussian then peak_mjd.isSome && peak_appmag.isNone
  else peak_mjd.isSome && peak_appmag.isSome

/-- The successful body of `add_simulation`, applied to the deep copy:
clean old simulation columns; write `uJysim = uJy + sim_flux` on the
unmasked rows (`sim_flux` positionally aligned with the good rows, produced
by the `Gaussian.gauss2fn` / `Eruption.erup2fn` interpolator abstracted as
`simflux` over the good rows' MJDs); set `SNRsim` to 0 everywhere and to
`uJysim/duJy` on the good rows; and write `SNRsimsum` as the Gaussian
rolling sum (abstracted as `conv`) of the `SNRsim` column. -/
def simulate_table (conv simflux : List ℚ → List ℚ) (flag : ℕ)
    (lc0 : List SimLcRow) : List SimLcRow :=
  let lc1 := clean_simulations lc0
  let ix := getindices lc1
  let good_ix := AandB ix (ix_where (fun r => r.mask &&& flag == 0) lc1)
  let mjds_good := good_ix.filterMap fun j => (lc1[j]?).map (·.mjd)
  let sf := simflux mjds_good
  let lc2 := lc1.mapIdx fun j r =>
    match (good_ix.zip sf).lookup j with
    | some v => { r with uJysim := some (r.uJy + v) }
    | none => r
  let lc3 := lc2.mapIdx fun j r =>
    if good_ix.contains j then
      { r with snrsim := some ((match r.uJysim with | some u => u | none => 0) / r.duJy) }
    else { r with snrsim := some 0 }
  let snrvals := lc3.map fun r => match r.snrsim with | some v => v | none => 0
  let sums := conv snrvals
  lc3.mapIdx fun j r => { r with snrsimsum := sums[j]? }

/-- Embedding of `SimDetecLightCurve.add_simulation(control_index, peak_mjd,
gaussian, eruption, peak_appmag, flag)` (`simulation_detection.py`): after
argument validation, deep-copies the stored table at `control_index` (a
fresh heap address), runs `simulate_table` on the copy, and returns it;
the stored tables are never written.  `.error` stands for the source's
raised `RuntimeError`s (and a missing control index). -/
def add_simulation (conv simflux : List ℚ → List ℚ) (st : SimDetecState)
    (control_index : ℕ) (peak_mjd : Option ℚ)
    (use_gaussian use_eruption : Bool) (peak_appmag : Option ℚ) (flag : ℕ) :
    SimDetecState × Except Unit (List SimLcRow) :=
  if !(add_simulation_args_ok peak_mjd use_gaussian use_eruption peak_appmag) then
    (st, .error ())
  else
    match st.lcs[control_index]? with
    | none => (st, .error ())
    | some addr =>
      match st.heap[addr]? with
      | none => (st, .error ())
      | some lc0 =>
        if (getindices (clean_simulations lc0)).length < 1 then
          ({ st with heap := st.heap ++ [clean_simulations lc0] }, .error ())
        else
          let out := simulate_table conv simflux flag lc0
          ({ st with heap := st.heap ++ [out] }, .ok out)

/-- Embedding of `LightCurve.flag_by_control_stats(cut)` (`lightcurve.py`):
flags each sub-criterion breach with its sub-flag, then sets the
questionable flag on the rows in `AnotB(unmasked_ix, zero_Nclip_ix)` and the
umbrella flag on the rows in `AnotB(getindices(), unmasked_ix)`. -/
def flag_by_control_stats (cut : ControlsCut) (rows : List (Masked ControlStats)) :
    List (Masked ControlStats) :=
  let flag_x2_ix := ix_inrange (fun r => r.data.c2_X2norm) (some cut.x2_max) none true false rows
  let flag_stn_ix := ix_inrange (fun r => r.data.c2_abs_stn) (some cut.stn_max) none true false rows
  let flag_nclip_ix := ix_inrange (fun r => r.data.c2_Nclip) (some cut.Nclip_max) none true false rows
  let flag_ngood_ix := ix_inrange (fun r => r.data.c2_Ngood) none (some cut.Ngood_min) false true rows
  let rows1 := update_mask_column cut.x2_flag flag_x2_ix true rows
  let rows2 := update_mask_column cut.stn_flag flag_stn_ix true rows1
  let rows3 := update_mask_column cut.Nclip_flag flag_nclip_ix true rows2
  let rows4 := update_mask_column cut.Ngood_flag flag_ngood_ix true rows3
  let zero_Nclip_ix := ix_equal (fun r => r.data.c2_Nclip) 0 rows4
  let unmasked_ix := ix_unmasked
    (cut.x2_flag ||| cut.stn_flag ||| cut.Nclip_flag ||| cut.Ngood_flag) rows4
  let rows5 := update_mask_column cut.questionable_flag
    (AnotB unmasked_ix zero_Nclip_ix) true rows4
  update_mask_column cut.flag (AnotB (getindices rows5) unmasked_ix) true rows5

/-- One `update_mask_column` application seen from a single row: clear the
flag (when `remove_old`, which all calls in `flag_by_control_stats` use) and
set it when the row's condition holds. -/
def upd1 (flag : ℕ) (cond : Bool) (m : ℕ) : ℕ :=
  if cond then clearFlag m flag ||| flag else clearFlag m flag

/-- The condition under which a given sub-criterion of
`flag_by_control_stats` flags a row: the four bound checks of the source,
OR-ed. -/
def sub_criterion (cut : ControlsCut) (d : ControlStats) : Bool :=
  inrangeB (some cut.x2_max) none true false d.c2_X2norm ||
  inrangeB (some cut.stn_max) none true false d.c2_abs_stn ||
  inrangeB (some cut.Nclip_max) none true false d.c2_Nclip ||
  inrangeB none (some cut.Ngood_min) false true d.c2_Ngood

/-- Per-row mask outcome of `flag_by_control_stats`. -/
def control_stats_step (cut : ControlsCut) (r : Masked ControlStats) : ℕ :=
  let m1 := upd1 cut.x2_flag (inrangeB (some cut.x2_max) none true false r.data.c2_X2norm) r.mask
  let m2 := upd1 cut.stn_flag (inrangeB (some cut.stn_max) none true false r.data.c2_abs_stn) m1
  let m3 := upd1 cut.Nclip_flag (inrangeB (some cut.Nclip_max) none true false r.data.c2_Nclip) m2
  let m4 := upd1 cut.Ngood_flag (inrangeB none (some cut.Ngood_min) false true r.data.c2_Ngood) m3
  let unm := m4 &&& (cut.x2_flag ||| cut.stn_flag ||| cut.Nclip_flag ||| cut.Ngood_flag) == 0
  let m5 := upd1 cut.questionable_flag (unm && !(r.data.c2_Nclip == 0)) m4
  upd1 cut.flag (!unm) m5

/-- A light-curve row as handled by `Supernova.verify_mjds`
(`lightcurve.py`): its MJD, its `Mask`, and the flux columns.  The flux
columns are `Option ℚ` because the placeholder rows added for SN-only MJDs
leave every column other than `MJD` and `Mask` NaN. -/
structure MRow where
  mjd : ℚ
  mask : ℕ
  uJy : Option ℚ
  duJy : Option ℚ
deriving DecidableEq

/-- `t.sort_values(by=["MJD"], ignore_index=True)`: a stable sort of the
rows by their MJD. -/
def sort_by_mjd (rows : List MRow) : List MRow :=
  List.insertionSort (fun a b => a.mjd ≤ b.mjd) rows

/-- `np.setdiff1d(A, B)` on value arrays (`AnotB` in `pdastro` applied to
MJD columns): the sorted unique values of `A` that do not occur in `B`. -/
def setdiff1d (A B : List ℚ) : List ℚ :=
  (List.insertionSort (fun a b : ℚ => a ≤ b) A.dedup).filter fun v => !B.contains v

/-- Per-control body of `Supernova.verify_mjds` (`lightcurve.py`), given the
already-sorted SN MJD column: the control is sorted by MJD; if its MJD
column already equals the SN's it is left as is.  Otherwise a placeholder
row (`Mask = 0`, all other columns NaN) is appended for each MJD only in the
SN, every row whose MJD occurs only in the control is dropped (raising — the
`.error` case — unless each such MJD matches exactly one row of the extended
table), and the result is sorted by MJD again. -/
def verify_mjds_control (sn_sorted_mjd : List ℚ) (ctl : List MRow) :
    Except Unit (List MRow) :=
  let ctlS := sort_by_mjd ctl
  let control_sorted_mjd := ctlS.map fun r => r.mjd
  if sn_sorted_mjd = control_sorted_mjd then .ok ctlS
  else
    let only_sn_mjd := setdiff1d sn_sorted_mjd control_sorted_mjd
    let only_control_mjd := setdiff1d control_sorted_mjd sn_sorted_mjd
    let ctl2 := ctlS ++ only_sn_mjd.map fun m => (⟨m, 0, none, none⟩ : MRow)
    if only_control_mjd.any fun m => (ctl2.countP fun r => r.mjd == m) != 1 then
      .error ()
    else
      .ok (sort_by_mjd (ctl2.filter fun r => !only_control_mjd.contains r.mjd))

/-- Embedding of `Supernova.verify_mjds` for the SN light curve and one
control light curve: the SN is sorted by MJD first, then the control is
aligned against the SN's sorted MJD column. -/
def verify_mjds (sn ctl : List MRow) : List MRow × Except Unit (List MRow) :=
  let snS := sort_by_mjd sn
  (snS, verify_mjds_control (snS.map fun r => r.mjd) ctl)

/-- The per-control guard of `Supernova.calculate_control_stats`
(`lightcurve.py`): a `RuntimeError` is raised for any control light curve
whose length or MJD column differs from the SN's; this predicate is `true`
exactly when the guard passes. -/
def control_stats_mjd_check (sn ctl : List MRow) : Bool :=
  (ctl.length == sn.length) && ((ctl.map fun r => r.mjd) == (sn.map fun r => r.mjd))

/-- A cleaned light-curve measurement row as read by `LightCurve.average`
(`lightcurve.py`): MJD, flux and flux uncertainty.  `prep_for_cleaning`
removed the rows with NaN flux or zero uncertainty before any averaging. -/
structure LRow where
  mjd : ℚ
  uJy : ℚ
  duJy : ℚ
deriving DecidableEq

/-- Modelled from the spec: the statistics dictionary (`statparams`)
produced by SigmaClipStats (`pdastrostatsclass.calcaverage_sigmacutloop`
from the `pdastro` dependency, which is not part of this repository). -/
structure StatParams where
  mean : Option ℚ
  mean_err : Option ℚ
  stdev : Option ℚ
  X2norm : Option ℚ
  Nclip : ℕ
  Ngood : ℕ
  ix_good : List ℕ
  ix_clip : List ℕ
deriving DecidableEq

/-- Modelled from the spec: the uncertainty-weighted mean with weights
`1/noise^2` used by SigmaClipStats (uniform weights stand in when the total
weight is zero, where the real code would propagate infinities). -/
def weightedMeanQ (pts : List (ℚ × ℚ)) : ℚ :=
  let wsum := (pts.map fun p => 1 / (p.2 * p.2)).sum
  if wsum = 0 then (pts.map fun p => p.1).sum / (pts.length : ℚ)
  else (pts.map fun p => p.1 / (p.2 * p.2)).sum / wsum

/-- Modelled from the spec: the median used by SigmaClipStats as the
clipping center of its first iteration. -/
def medianQ (l : List ℚ) : ℚ :=
  let s := List.insertionSort (fun a b : ℚ => a ≤ b) l
  match s.get? ((s.length - 1) / 2) with
  | some v => v
  | none => 0

/-- Modelled from the spec: the `(index, value, noise)` sample that
SigmaClipStats works on, i.e. the rows of the `(value, noise)` table
selected by `indices`. -/
def calc_sel (rows : List (ℚ × ℚ)) (indices : List ℕ) : List (ℕ × ℚ × ℚ) :=
  indices.filterMap fun i => (rows[i]?).map fun p => (i, p)

/-- Modelled from the spec: the clipping center — the median on a
median-first iteration, the weighted mean otherwise. -/
def pickCenter (median_first : Bool) (sel : List (ℕ × ℚ × ℚ)) : ℚ :=
  if median_first then medianQ (sel.map fun t => t.2.1)
  else weightedMeanQ (sel.map fun t => t.2)

/-- Modelled from the spec: one clipping pass of SigmaClipStats over a
non-empty sample, returning the statistics of the kept set.  Points whose
squared deviation from the center exceeds the square of `Nsigma` times the
mean squared deviation are clipped; per the spec the kept set is never
emptied (the last iterate's statistics are returned instead) and a
non-positive `Nsigma` disables clipping, as in the calls used for MJD
averaging.  Squared quantities stand in for the standard deviation and the
mean error, since ℚ has no square root. -/
def calc_core (Nsigma : ℚ) (median_first : Bool) (sel : List (ℕ × ℚ × ℚ)) : StatParams :=
  let vals := sel.map fun t => t.2.1
  let center := pickCenter median_first sel
  let var := (vals.map fun v => (v - center) * (v - center)).sum / (vals.length : ℚ)
  let keep : ℕ × ℚ × ℚ → Bool := fun t =>
    decide ((t.2.1 - center) * (t.2.1 - center) ≤ Nsigma * Nsigma * var)
  let kept := if Nsigma ≤ 0 then sel
    else if sel.filter keep = [] then sel else sel.filter keep
  let clip := if Nsigma ≤ 0 then []
    else if sel.filter keep = [] then [] else sel.filter fun t => !keep t
  let keptPairs := kept.map fun t => t.2
  let m := weightedMeanQ keptPairs
  let wsum := (keptPairs.map fun p => 1 / (p.2 * p.2)).sum
  ⟨some m, some (1 / wsum),
    some ((keptPairs.map fun p => (p.1 - m) * (p.1 - m)).sum / (kept.length : ℚ)),
    if 2 ≤ kept.length then
      some ((keptPairs.map fun p => ((p.1 - m) / p.2) * ((p.1 - m) / p.2)).sum /
        ((kept.length : ℚ) - 1))
    else none,
    clip.length, kept.length, kept.map fun t => t.1, clip.map fun t => t.1⟩

/-- Modelled from the spec: SigmaClipStats
(`pdastrostatsclass.calcaverage_sigmacutloop`).  It reports "no data"
(`mean = none`, empty index sets) exactly when fewer than one point is
supplied, and otherwise returns well-defined statistics over a non-empty
kept set, with `Ngood`/`Nclip` counting the kept and clipped points and
`ix_good`/`ix_clip` listing their indices. -/
def calcaverage_sigmacutloop (rows : List (ℚ × ℚ)) (indices : List ℕ)
    (Nsigma : ℚ) (median_first : Bool) : StatParams :=
  if calc_sel rows indices = [] then ⟨none, none, none, none, 0, 0, [], []⟩
  else calc_core Nsigma median_first (calc_sel rows indices)

/-- The day-binning ("bad day") cut as read by `LightCurve.average`
(`lightcurve.py`): the umbrella flag, the `ixclip_flag` and `smallnum_flag`
sub-flags, and the per-bin quality thresholds from `cut.params`. -/
structure BaddayCut where
  flag : ℕ
  ixclip_flag : ℕ
  smallnum_flag : ℕ
  Ngood_min : ℚ
  Nclip_max : ℚ
  x2_max : ℚ
deriving DecidableEq

/-- A row of the averaged light curve built by `LightCurve.average`
(`lightcurve.py`): `avg_lc.newrow` writes `MJDbin`, the counts and a zero
`Mask`; the statistics columns are only filled in (`add2row`) for bins with
data, so they are `Option ℚ` (NaN/absent otherwise). -/
structure ARow where
  mjd : Option ℚ
  mjdbin : ℚ
  uJy : Option ℚ
  duJy : Option ℚ
  stdev : Option ℚ
  x2 : Option ℚ
  Nclip : ℕ
  Ngood : ℕ
  Nexcluded : ℕ
  mask : ℕ
deriving DecidableEq

/-- The measurement indices of one MJD bin `[b, b + mjdbinsize)`, computed
in `LightCurve.average` by `ix_inrange` on the MJD column with the upper
limit excluded. -/
def bin_range_ix (mjdbinsize : ℚ) (lc : List (Masked LRow)) (b : ℚ) : List ℕ :=
  ix_inrange (fun r => r.data.mjd) (some b) (some (b + mjdbinsize)) false true lc

/-- The bin's rows not already excluded by `previous_flags`:
`ix_unmasked` restricted to the bin's indices in `LightCurve.average`. -/
def bin_good_ix (previous_flags : ℕ) (mjdbinsize : ℚ) (lc : List (Masked LRow)) (b : ℚ) :
    List ℕ :=
  (bin_range_ix mjdbinsize lc b).filter fun i =>
    match lc[i]? with
    | some r => r.mask &&& previous_flags == 0
    | none => false

/-- One iteration of the `while` loop of `LightCurve.average`
(`lightcurve.py`): computes the bin's index sets, appends one new averaged
row (returned first), and flags the input light curve's rows (returned
second).  The SigmaClipStats calls go through the spec-modelled
`calcaverage_sigmacutloop`. -/
def average_bin (cut : BaddayCut) (previous_flags : ℕ) (mjdbinsize : ℚ)
    (lc : List (Masked LRow)) (b : ℚ) : ARow × List (Masked LRow) :=
  let range_ix := bin_range_ix mjdbinsize lc b
  let range_good_ix := bin_good_ix previous_flags mjdbinsize lc b
  let base : ARow :=
    ⟨none, b + (1 / 2) * mjdbinsize, none, none, none, none, 0, 0,
      range_ix.length - range_good_ix.length, 0⟩
  if range_ix.length < 1 then
    ({ base with mask := base.mask ||| cut.flag }, lc)
  else if range_good_ix.length < 1 then
    let fluxstat := calcaverage_sigmacutloop
      (lc.map fun r => (r.data.uJy, r.data.duJy)) range_ix 3 true
    let mjdstat := calcaverage_sigmacutloop
      (lc.map fun r => (r.data.mjd, 1)) range_ix 0 false
    ({ base with
        mjd := mjdstat.mean, uJy := fluxstat.mean, duJy := fluxstat.mean_err,
        stdev := fluxstat.stdev, x2 := fluxstat.X2norm,
        Nclip := fluxstat.Nclip, Ngood := fluxstat.Ngood,
        mask := base.mask ||| cut.flag },
      update_mask_column cut.flag range_ix false lc)
  else
    let fluxstat := calcaverage_sigmacutloop
      (lc.map fun r => (r.data.uJy, r.data.duJy)) range_good_ix 3 true
    if fluxstat.mean = none ∨ fluxstat.ix_good.length < 1 then
      ({ base with mask := base.mask ||| cut.flag },
        update_mask_column cut.flag range_ix false lc)
    else
      let mjdstat := calcaverage_sigmacutloop
        (lc.map fun r => (r.data.mjd, r.data.duJy)) fluxstat.ix_good 0 false
      let row : ARow :=
        { base with
            mjd := mjdstat.mean, uJy := fluxstat.mean, duJy := fluxstat.mean_err,
            stdev := fluxstat.stdev, x2 := fluxstat.X2norm,
            Nclip := fluxstat.Nclip, Ngood := fluxstat.Ngood }
      let lc1 := if 0 < fluxstat.ix_clip.length then
          update_mask_column cut.ixclip_flag fluxstat.ix_clip false lc
        else lc
      if range_good_ix.length < 3 then
        ({ row with mask := row.mask ||| cut.smallnum_flag },
          update_mask_column cut.smallnum_flag range_ix false lc1)
      else
        let is_bad := decide ((fluxstat.Ngood : ℚ) < cut.Ngood_min) ||
          decide (cut.Nclip_max < (fluxstat.Nclip : ℚ)) ||
          (match fluxstat.X2norm with
            | some x2v => decide (cut.x2_max < x2v)
            | none => false)
        if is_bad then
          ({ row with mask := row.mask ||| cut.flag },
            update_mask_column cut.flag range_ix false lc1)
        else (row, lc1)

/-- The bin start times visited by the `while` loop of
`LightCurve.average`: from the integer part of the minimum MJD in steps of
`mjdbinsize`, while at most the integer part of the maximum MJD plus one.
(`Rat.floor` agrees with Python's `int()` truncation on the survey's
non-negative MJDs.) -/
def binStarts (lc : List (Masked LRow)) (mjdbinsize : ℚ) : List ℚ :=
  match lc.map fun r => r.data.mjd with
  | [] => []
  | m :: ms =>
    let lo : ℚ := ((Rat.floor (ms.foldl min m) : ℤ) : ℚ)
    let hi : ℚ := ((Rat.floor (ms.foldl max m) : ℤ) : ℚ) + 1
    (List.range ((Rat.floor ((hi - lo) / mjdbinsize)).toNat + 1)).map
      fun k => lo + (k : ℚ) * mjdbinsize

/-- The loop of `LightCurve.average` over a list of bin start times: each
bin appends one row to the averaged light curve and updates the input light
curve's `Mask` column. -/
def average_go (cut : BaddayCut) (previous_flags : ℕ) (mjdbinsize : ℚ) :
    List (Masked LRow) → List ℚ → List ARow × List (Masked LRow)
  | lc, [] => ([], lc)
  | lc, b :: bs =>
    let p := average_bin cut previous_flags mjdbinsize lc b
    let q := average_go cut previous_flags mjdbinsize p.2 bs
    (p.1 :: q.1, q.2)

/-- Embedding of `LightCurve.average` (`lightcurve.py`): one output row per
MJD bin, plus the input light curve with the flags accumulated by the
binning.  (The trailing `flux2mag` call and integer casts do not touch the
columns modelled here.) -/
def average (cut : BaddayCut) (previous_flags : ℕ) (mjdbinsize : ℚ)
    (lc : List (Masked LRow)) : List ARow × List (Masked LRow) :=
  average_go cut previous_flags mjdbinsize lc (binStarts lc mjdbinsize)

end AtlasLC

namespace AtlasLC

/-! Basic lemmas about the index helpers and mask updates. -/

theorem testBit_clearFlag (m f i : ℕ) :
    (clearFlag m f).testBit i = (m.testBit i && !(f.testBit i)) := by
  simp only [clearFlag, Nat.testBit_xor, Nat.testBit_land]
  cases m.testBit i <;> cases f.testBit i <;> rfl

theorem clearFlag_idem (m f : ℕ) : clearFlag (clearFlag m f) f = clearFlag m f := by
  apply Nat.eq_of_testBit_eq
  intro i
  simp only [testBit_clearFlag]
  cases m.testBit i <;> cases f.testBit i <;> rfl

theorem clearFlag_lor_self (m f : ℕ) : clearFlag (clearFlag m f ||| f) f = clearFlag m f := by
  apply Nat.eq_of_testBit_eq
  intro i
  simp only [testBit_clearFlag, Nat.testBit_lor]
  cases m.testBit i <;> cases f.testBit i <;> rfl

theorem land_clearFlag_self (m f : ℕ) : clearFlag m f &&& f = 0 := by
  apply Nat.eq_of_testBit_eq
  intro i
  simp only [Nat.testBit_land, testBit_clearFlag, Nat.zero_testBit]
  cases m.testBit i <;> cases f.testBit i <;> rfl

theorem land_clearFlag_lor_self (m f : ℕ) : (clearFlag m f ||| f) &&& f = f := by
  apply Nat.eq_of_testBit_eq
  intro i
  simp only [Nat.testBit_land, Nat.testBit_lor, testBit_clearFlag]
  cases m.testBit i <;> cases f.testBit i <;> rfl

theorem mem_ix_where {pred : α → Bool} {rows : List α} {j : ℕ} :
    j ∈ ix_where pred rows ↔ ∃ r, rows[j]? = some r ∧ pred r = true := by
  simp only [ix_where, List.mem_filter, List.mem_range]
  constructor
  · rintro ⟨hj, hp⟩
    rcases h : rows[j]? with _ | r
    · rw [h] at hp; exact absurd hp (by simp)
    · exact ⟨r, rfl, by rw [h] at hp; exact hp⟩
  · rintro ⟨r, hr, hp⟩
    have hj : j < rows.length := by
      by_contra h
      rw [List.getElem?_eq_none (by omega)] at hr
      exact Option.noConfusion hr
    exact ⟨hj, by rw [hr]; exact hp⟩

theorem getElem?_update_mask_column (flag : ℕ) (indices : List ℕ) (remove_old : Bool)
    (rows : List (Masked α)) (j : ℕ) :
    (update_mask_column flag indices remove_old rows)[j]? =
      rows[j]?.map fun r =>
        let m := if remove_old then clearFlag r.mask flag else r.mask
        if indices.contains j then ⟨r.data, m ||| flag⟩ else ⟨r.data, m⟩ := by
  simp [update_mask_column, List.getElem?_mapIdx]

theorem length_update_mask_column (flag : ℕ) (indices : List ℕ) (remove_old : Bool)
    (rows : List (Masked α)) :
    (update_mask_column flag indices remove_old rows).length = rows.length := by
  simp [update_mask_column]

theorem data_update_mask_column (flag : ℕ) (indices : List ℕ) (remove_old : Bool)
    (rows : List (Masked α)) :
    (update_mask_column flag indices remove_old rows).map Masked.data =
      rows.map Masked.data := by
  apply List.ext_getElem?
  intro j
  simp only [List.getElem?_map, getElem?_update_mask_column]
  cases rows[j]? with
  | none => rfl
  | some r => by_cases h : j ∈ indices <;> simp [h]

theorem ix_where_congr_data {pred : α → Bool} {rows rows2 : List (Masked α)}
    (h : rows.map Masked.data = rows2.map Masked.data) :
    ix_where (fun r => pred r.data) rows = ix_where (fun r => pred r.data) rows2 := by
  have hlen : rows.length = rows2.length := by
    have := congrArg List.length h
    simpa using this
  unfold ix_where
  rw [hlen]
  apply List.filter_congr
  intro j _
  have hjd : rows[j]?.map Masked.data = rows2[j]?.map Masked.data := by
    have h1 := congrArg (fun l => l[j]?) h
    simpa using h1
  rcases h1 : rows[j]? with _ | r <;> rcases h2 : rows2[j]? with _ | r2 <;>
    rw [h1, h2] at hjd <;> simp_all

theorem mem_AnotB {A B : List ℕ} {j : ℕ} : j ∈ AnotB A B ↔ j ∈ A ∧ j ∉ B := by
  simp [AnotB, List.mem_filter]

theorem update_mask_column_idem (flag : ℕ) (ix : List ℕ) (rows : List (Masked α)) :
    update_mask_column flag ix true (update_mask_column flag ix true rows) =
      update_mask_column flag ix true rows := by
  apply List.ext_getElem?
  intro j
  simp only [getElem?_update_mask_column]
  cases rows[j]? with
  | none => rfl
  | some r =>
    by_cases h : j ∈ ix <;>
      simp [h, clearFlag_lor_self, clearFlag_idem]

/-- Claim C2 — applying the same directly-applicable cut twice produces the
same rows (hence the same `Mask` column) as applying it once, and after one
application the cut's flag bit is set on exactly the bound-violating rows. -/
theorem C2_apply_cut_idempotent (flag : ℕ) (lo hi : Option ℚ)
    (rows : List (Masked ℚ)) (hflag : flag ≠ 0)
    (hbound : lo.isSome ∨ hi.isSome) (hne : rows ≠ []) :
    ∃ out p p2, apply_cut flag lo hi rows = .ok (out, p) ∧
      apply_cut flag lo hi out = .ok (out, p2) ∧
      ∀ (j : ℕ) (r : Masked ℚ), rows[j]? = some r →
        ∃ r2 : Masked ℚ, out[j]? = some r2 ∧ r2.data = r.data ∧
          ((r2.mask &&& flag ≠ 0) ↔ inrangeB lo hi false false r.data = false) := by
  have hlen0 : rows.length ≠ 0 := by
    intro h
    exact hne (List.length_eq_zero.mp h)
  set kept_ix := ix_inrange (·.data) lo hi false false rows with hkept
  set cut_ix := AnotB (getindices rows) kept_ix with hcut
  set out := update_mask_column flag cut_ix true rows with hout
  have hdata : out.map Masked.data = rows.map Masked.data := by
    rw [hout]; exact data_update_mask_column _ _ _ _
  have hlen : out.length = rows.length := by
    have := congrArg List.length hdata
    simpa using this
  have hkept2 : ix_inrange (·.data) lo hi false false out = kept_ix := by
    rw [hkept]
    unfold ix_inrange
    exact ix_where_congr_data hdata
  have hgo : apply_cut_go flag lo hi rows =
      .ok (out, 100 * (cut_ix.length : ℚ) / ((getindices rows).length : ℚ)) := by
    unfold apply_cut_go
    simp only [← hkept, ← hcut, ← hout, if_neg hlen0]
  have hcut2 : AnotB (getindices out) kept_ix = cut_ix := by
    rw [hcut]
    unfold getindices
    rw [hlen]
  have hgo2 : apply_cut_go flag lo hi out =
      .ok (out, 100 * (cut_ix.length : ℚ) / ((getindices out).length : ℚ)) := by
    unfold apply_cut_go
    simp only [hkept2, hcut2]
    rw [if_neg (by rw [hlen]; exact hlen0)]
    have hidem : update_mask_column flag cut_ix true out = out := by
      rw [hout]; exact update_mask_column_idem _ _ _
    rw [hidem]
  have happ : ∀ lo2 hi2 : Option ℚ, lo2.isSome ∨ hi2.isSome →
      apply_cut flag lo2 hi2 = apply_cut_go flag lo2 hi2 := by
    intro lo2 hi2 hb
    cases lo2 <;> cases hi2
    · simp at hb
    · rfl
    · rfl
    · rfl
  refine ⟨out, 100 * (cut_ix.length : ℚ) / ((getindices rows).length : ℚ),
    100 * (cut_ix.length : ℚ) / ((getindices out).length : ℚ), ?_, ?_, ?_⟩
  · rw [happ lo hi hbound]; exact hgo
  · rw [happ lo hi hbound]; exact hgo2
  · intro j r hr
    have hj : j < rows.length := by
      by_contra h
      rw [List.getElem?_eq_none (by omega)] at hr
      exact Option.noConfusion hr
    by_cases hmem : j ∈ cut_ix
    · have hout_j : out[j]? = some ⟨r.data, clearFlag r.mask flag ||| flag⟩ := by
        rw [hout, getElem?_update_mask_column, hr]
        simp [hmem]
      refine ⟨_, hout_j, rfl, ?_⟩
      show (clearFlag r.mask flag ||| flag) &&& flag ≠ 0 ↔ _
      rw [land_clearFlag_lor_self]
      constructor
      · intro _
        rw [hcut] at hmem
        rcases mem_AnotB.mp hmem with ⟨-, hnk⟩
        by_contra hpred
        have hT : inrangeB lo hi false false r.data = true := by
          cases h : inrangeB lo hi false false r.data
          · exact absurd h hpred
          · rfl
        exact hnk (by
          rw [hkept]
          unfold ix_inrange
          exact mem_ix_where.mpr ⟨r, hr, hT⟩)
      · intro _; exact hflag
    · have hout_j : out[j]? = some ⟨r.data, clearFlag r.mask flag⟩ := by
        rw [hout, getElem?_update_mask_column, hr]
        simp [hmem]
      refine ⟨_, hout_j, rfl, ?_⟩
      show clearFlag r.mask flag &&& flag ≠ 0 ↔ _
      rw [land_clearFlag_self]
      constructor
      · intro h; exact absurd rfl h
      · intro hpred
        exfalso
        apply hmem
        rw [hcut]
        refine mem_AnotB.mpr ⟨by simpa [getindices] using hj, ?_⟩
        intro hk
        rw [hkept] at hk
        unfold ix_inrange at hk
        rcases mem_ix_where.mp hk with ⟨r2, hr2, hp2⟩
        rw [hr] at hr2
        cases hr2
        rw [hpred] at hp2
        exact Bool.noConfusion hp2

/-- Witness for C2 at a concrete light curve and cut. -/
theorem C2_witness :
    ((3 : ℕ) ≠ 0 ∧ (some (0 : ℚ)).isSome ∨ (some (10 : ℚ)).isSome) ∧
      ([⟨5, 0⟩, ⟨12, 0⟩] : List (Masked ℚ)) ≠ [] ∧
      (∃ out p p2, apply_cut 3 (some 0) (some 10) [⟨5, 0⟩, ⟨12, 0⟩] = .ok (out, p) ∧
        apply_cut 3 (some 0) (some 10) out = .ok (out, p2) ∧
        ∀ (j : ℕ) (r : Masked ℚ), ([⟨5, 0⟩, ⟨12, 0⟩] : List (Masked ℚ))[j]? = some r →
          ∃ r2 : Masked ℚ, out[j]? = some r2 ∧ r2.data = r.data ∧
            ((r2.mask &&& 3 ≠ 0) ↔ inrangeB (some 0) (some 10) false false r.data = false)) :=
  ⟨Or.inl ⟨by decide, by decide⟩, by decide,
    C2_apply_cut_idempotent 3 (some 0) (some 10) [⟨5, 0⟩, ⟨12, 0⟩]
      (by decide) (Or.inl (by decide)) (by decide)⟩

/-! Lemmas for the control-consistency cut (`flag_by_control_stats`). -/

theorem contains_ix_where {pred : β → Bool} {src : List β} {j : ℕ} {b : β}
    (hb : src[j]? = some b) : (ix_where pred src).contains j = pred b := by
  cases h : pred b
  · have : j ∉ ix_where pred src := by
      intro hmem
      rcases mem_ix_where.mp hmem with ⟨b2, hb2, hp2⟩
      rw [hb] at hb2
      cases hb2
      rw [h] at hp2
      exact Bool.noConfusion hp2
    simpa using this
  · have : j ∈ ix_where pred src := mem_ix_where.mpr ⟨b, hb, h⟩
    simpa using this

theorem ix_where_map (q : α → Bool) (f : β → α) (src : List β) :
    ix_where q (src.map f) = ix_where (fun b => q (f b)) src := by
  unfold ix_where
  rw [List.length_map]
  apply List.filter_congr
  intro j _
  rw [List.getElem?_map]
  cases src[j]? <;> rfl

theorem AnotB_ix_where (p q : β → Bool) (src : List β) :
    AnotB (ix_where p src) (ix_where q src) = ix_where (fun b => p b && !q b) src := by
  show ((List.range src.length).filter fun j =>
      match src[j]? with | some r => p r | none => false).filter
      (fun x => !(ix_where q src).contains x) = _
  rw [List.filter_filter]
  apply List.filter_congr
  intro j hj
  rw [List.mem_range] at hj
  rw [List.getElem?_eq_getElem hj, contains_ix_where (List.getElem?_eq_getElem hj)]
  exact Bool.and_comm _ _

theorem AnotB_getindices_ix_where (p : β → Bool) (src : List β) (other : List γ)
    (hlen : other.length = src.length) :
    AnotB (getindices other) (ix_where p src) = ix_where (fun b => !p b) src := by
  unfold AnotB getindices
  rw [hlen]
  apply List.filter_congr
  intro j hj
  rw [List.mem_range] at hj
  rw [List.getElem?_eq_getElem hj, contains_ix_where (List.getElem?_eq_getElem hj)]

theorem update_mask_column_ix_where_map (flag : ℕ) (pred : β → Bool) (src : List β)
    (f : β → Masked α) :
    update_mask_column flag (ix_where pred src) true (src.map f) =
      src.map fun b => ⟨(f b).data, upd1 flag (pred b) (f b).mask⟩ := by
  apply List.ext_getElem?
  intro j
  rw [getElem?_update_mask_column, List.getElem?_map, List.getElem?_map]
  cases hb : src[j]? with
  | none => rfl
  | some b =>
    rw [Option.map_some', Option.map_some', contains_ix_where hb]
    cases hp : pred b <;> simp [upd1, hp]

theorem update_mask_column_ix_where_true (flag : ℕ) (pred : Masked α → Bool)
    (rows : List (Masked α)) :
    update_mask_column flag (ix_where pred rows) true rows =
      rows.map fun r => ⟨r.data, upd1 flag (pred r) r.mask⟩ := by
  have h := update_mask_column_ix_where_map flag pred rows id
  simpa using h

theorem flag_by_control_stats_eq_map (cut : ControlsCut) (rows : List (Masked ControlStats)) :
    flag_by_control_stats cut rows = rows.map fun r => ⟨r.data, control_stats_step cut r⟩ := by
  unfold flag_by_control_stats
  simp only [ix_inrange, ix_equal, ix_unmasked]
  rw [update_mask_column_ix_where_true]
  rw [update_mask_column_ix_where_map]
  rw [update_mask_column_ix_where_map]
  rw [update_mask_column_ix_where_map]
  rw [ix_where_map, ix_where_map, AnotB_ix_where]
  rw [update_mask_column_ix_where_map]
  rw [AnotB_getindices_ix_where _ _ _ (by simp)]
  rw [update_mask_column_ix_where_map]
  rfl

theorem land_lor_distrib (a b c : ℕ) : a &&& (b ||| c) = a &&& b ||| a &&& c := by
  apply Nat.eq_of_testBit_eq
  intro i
  simp only [Nat.testBit_land, Nat.testBit_lor]
  cases a.testBit i <;> cases b.testBit i <;> cases c.testBit i <;> rfl

theorem lor_eq_zero {a b : ℕ} : a ||| b = 0 ↔ a = 0 ∧ b = 0 := by
  constructor
  · intro h
    constructor <;> apply Nat.eq_of_testBit_eq <;> intro i <;>
      have hi := congrArg (Nat.testBit · i) h <;>
      simp only [Nat.testBit_lor, Nat.zero_testBit] at hi ⊢ <;>
      cases ha : a.testBit i <;> cases hb : b.testBit i <;> simp_all
  · rintro ⟨rfl, rfl⟩
    rfl

theorem upd1_land_disjoint {f g : ℕ} (c : Bool) (m : ℕ) (h : f &&& g = 0) :
    upd1 f c m &&& g = m &&& g := by
  apply Nat.eq_of_testBit_eq
  intro i
  have hi := congrArg (Nat.testBit · i) h
  simp only [Nat.testBit_land, Nat.zero_testBit] at hi
  cases c <;>
    simp only [upd1, if_true, if_false, Bool.false_eq_true, Nat.testBit_land,
      Nat.testBit_lor, testBit_clearFlag] <;>
    cases hf : f.testBit i <;> cases hg : g.testBit i <;>
    cases m.testBit i <;> simp_all

theorem upd1_land_self (f : ℕ) (c : Bool) (m : ℕ) :
    upd1 f c m &&& f = if c then f else 0 := by
  cases c <;> simp [upd1, land_clearFlag_lor_self, land_clearFlag_self]

/-- The mask computed by `control_stats_step` has the questionable bit set
precisely when no sub-criterion fired and the clipped count is non-zero
(assuming the cut's flag bits are non-zero and pairwise disjoint). -/
theorem control_stats_step_questionable (cut : ControlsCut) (r : Masked ControlStats)
    (hq : cut.questionable_flag ≠ 0)
    (hqf : cut.flag &&& cut.questionable_flag = 0)
    (hx : cut.x2_flag ≠ 0) (hs : cut.stn_flag ≠ 0)
    (hn : cut.Nclip_flag ≠ 0) (hg : cut.Ngood_flag ≠ 0)
    (hxs : cut.x2_flag &&& cut.stn_flag = 0)
    (hxn : cut.x2_flag &&& cut.Nclip_flag = 0)
    (hxg : cut.x2_flag &&& cut.Ngood_flag = 0)
    (hsn : cut.stn_flag &&& cut.Nclip_flag = 0)
    (hsg : cut.stn_flag &&& cut.Ngood_flag = 0)
    (hng : cut.Nclip_flag &&& cut.Ngood_flag = 0) :
    (control_stats_step cut r &&& cut.questionable_flag ≠ 0) ↔
      (sub_criterion cut r.data = false ∧ r.data.c2_Nclip ≠ 0) := by
  set c1 := inrangeB (some cut.x2_max) none true false r.data.c2_X2norm with hc1
  set c2 := inrangeB (some cut.stn_max) none true false r.data.c2_abs_stn with hc2
  set c3 := inrangeB (some cut.Nclip_max) none true false r.data.c2_Nclip with hc3
  set c4 := inrangeB none (some cut.Ngood_min) false true r.data.c2_Ngood with hc4
  set m1 := upd1 cut.x2_flag c1 r.mask with hm1
  set m2 := upd1 cut.stn_flag c2 m1 with hm2
  set m3 := upd1 cut.Nclip_flag c3 m2 with hm3
  set m4 := upd1 cut.Ngood_flag c4 m3 with hm4
  have h4x : m4 &&& cut.x2_flag = if c1 then cut.x2_flag else 0 := by
    rw [hm4, upd1_land_disjoint _ _ (Nat.land_comm _ _ ▸ hxg),
      hm3, upd1_land_disjoint _ _ (Nat.land_comm _ _ ▸ hxn),
      hm2, upd1_land_disjoint _ _ (Nat.land_comm _ _ ▸ hxs),
      hm1, upd1_land_self]
  have h4s : m4 &&& cut.stn_flag = if c2 then cut.stn_flag else 0 := by
    rw [hm4, upd1_land_disjoint _ _ (Nat.land_comm _ _ ▸ hsg),
      hm3, upd1_land_disjoint _ _ (Nat.land_comm _ _ ▸ hsn),
      hm2, upd1_land_self]
  have h4n : m4 &&& cut.Nclip_flag = if c3 then cut.Nclip_flag else 0 := by
    rw [hm4, upd1_land_disjoint _ _ (Nat.land_comm _ _ ▸ hng),
      hm3, upd1_land_self]
  have h4g : m4 &&& cut.Ngood_flag = if c4 then cut.Ngood_flag else 0 := by
    rw [hm4, upd1_land_self]
  have hU : (m4 &&& (cut.x2_flag ||| cut.stn_flag ||| cut.Nclip_flag ||| cut.Ngood_flag) == 0)
      = !sub_criterion cut r.data := by
    rw [land_lor_distrib, land_lor_distrib, land_lor_distrib, h4x, h4s, h4n, h4g]
    rw [sub_criterion, ← hc1, ← hc2, ← hc3, ← hc4]
    cases c1 <;> cases c2 <;> cases c3 <;> cases c4 <;>
      simp_all [lor_eq_zero]
  show (upd1 cut.flag _ (upd1 cut.questionable_flag _ m4) &&& cut.questionable_flag ≠ 0) ↔ _
  rw [upd1_land_disjoint _ _ hqf, upd1_land_self, hU]
  cases hsub : sub_criterion cut r.data <;>
    rcases hclip : decide (r.data.c2_Nclip = (0 : ℚ)) with _ | _ <;>
    simp_all [beq_iff_eq]

/-- Claim C1 (corrected) — after the control-consistency flagging
(`flag_by_control_stats`), a transient row carries the questionable bit iff
NO sub-criterion (chi-square, signal-to-noise, clipped-count, kept-count)
flagged that row AND the row's clipped count `c2_Nclip` is non-zero; in
particular a row with clipped count = 0 never receives the questionable
bit.  (This is the opposite polarity of the spec sentence.)  The flag bits
are assumed non-zero and pairwise disjoint, as bitmask flags are. -/
theorem C1_questionable_iff (cut : ControlsCut) (rows : List (Masked ControlStats))
    (hq : cut.questionable_flag ≠ 0)
    (hqf : cut.flag &&& cut.questionable_flag = 0)
    (hx : cut.x2_flag ≠ 0) (hs : cut.stn_flag ≠ 0)
    (hn : cut.Nclip_flag ≠ 0) (hg : cut.Ngood_flag ≠ 0)
    (hxs : cut.x2_flag &&& cut.stn_flag = 0)
    (hxn : cut.x2_flag &&& cut.Nclip_flag = 0)
    (hxg : cut.x2_flag &&& cut.Ngood_flag = 0)
    (hsn : cut.stn_flag &&& cut.Nclip_flag = 0)
    (hsg : cut.stn_flag &&& cut.Ngood_flag = 0)
    (hng : cut.Nclip_flag &&& cut.Ngood_flag = 0) :
    ∀ (j : ℕ) (r : Masked ControlStats), rows[j]? = some r →
      ∃ r2 : Masked ControlStats, (flag_by_control_stats cut rows)[j]? = some r2 ∧
        r2.data = r.data ∧
        ((r2.mask &&& cut.questionable_flag ≠ 0) ↔
          (sub_criterion cut r.data = false ∧ r.data.c2_Nclip ≠ 0)) := by
  intro j r hr
  rw [flag_by_control_stats_eq_map]
  refine ⟨⟨r.data, control_stats_step cut r⟩, ?_, rfl, ?_⟩
  · rw [List.getElem?_map, hr]; rfl
  · exact control_stats_step_questionable cut r hq hqf hx hs hn hg hxs hxn hxg hsn hsg hng

/-- Counterexample to claim C1 as stated.  Row 0 has a flagged sub-criterion
(chi-square 10 > 2) and clipped count 0, yet does NOT receive the
questionable bit `0x80000`; row 1 has no flagged sub-criterion and clipped
count 1 > 0, yet DOES receive the questionable bit. -/
theorem C1_counterexample :
    flag_by_control_stats
        ⟨2, 3, 2, 4, 0x100, 0x200, 0x400, 0x800, 0x80000, 0x400000⟩
        [⟨⟨10, 0, 0, 5⟩, 0⟩, ⟨⟨1, 0, 1, 5⟩, 0⟩] =
      [⟨⟨10, 0, 0, 5⟩, 0x400100⟩, ⟨⟨1, 0, 1, 5⟩, 0x80000⟩] ∧
    sub_criterion ⟨2, 3, 2, 4, 0x100, 0x200, 0x400, 0x800, 0x80000, 0x400000⟩
        ⟨10, 0, 0, 5⟩ = true ∧
    ((0x400100 : ℕ) &&& 0x80000 = 0) ∧
    sub_criterion ⟨2, 3, 2, 4, 0x100, 0x200, 0x400, 0x800, 0x80000, 0x400000⟩
        ⟨1, 0, 1, 5⟩ = false ∧
    ((0x80000 : ℕ) &&& 0x80000 ≠ 0) := by
  refine ⟨?_, by decide, by decide, by decide, by decide⟩
  with_unfolding_all rfl

/-- Witness for the corrected C1 statement at a concrete cut and row. -/
theorem C1_witness :
    ((0x80000 : ℕ) ≠ 0 ∧ (0x400000 : ℕ) &&& 0x80000 = 0 ∧ (0x100 : ℕ) ≠ 0 ∧
      (0x200 : ℕ) ≠ 0 ∧ (0x400 : ℕ) ≠ 0 ∧ (0x800 : ℕ) ≠ 0 ∧
      (0x100 : ℕ) &&& 0x200 = 0 ∧ (0x100 : ℕ) &&& 0x400 = 0 ∧
      (0x100 : ℕ) &&& 0x800 = 0 ∧ (0x200 : ℕ) &&& 0x400 = 0 ∧
      (0x200 : ℕ) &&& 0x800 = 0 ∧ (0x400 : ℕ) &&& 0x800 = 0) ∧
    (∀ (j : ℕ) (r : Masked ControlStats),
      ([⟨⟨1, 0, 1, 5⟩, 0⟩] : List (Masked ControlStats))[j]? = some r →
      ∃ r2 : Masked ControlStats,
        (flag_by_control_stats ⟨2, 3, 2, 4, 0x100, 0x200, 0x400, 0x800, 0x80000, 0x400000⟩
          [⟨⟨1, 0, 1, 5⟩, 0⟩])[j]? = some r2 ∧ r2.data = r.data ∧
        ((r2.mask &&& 0x80000 ≠ 0) ↔
          (sub_criterion ⟨2, 3, 2, 4, 0x100, 0x200, 0x400, 0x800, 0x80000, 0x400000⟩
              r.data = false ∧ r.data.c2_Nclip ≠ 0))) :=
  ⟨by decide,
    C1_questionable_iff ⟨2, 3, 2, 4, 0x100, 0x200, 0x400, 0x800, 0x80000, 0x400000⟩
      [⟨⟨1, 0, 1, 5⟩, 0⟩] (by decide) (by decide) (by decide) (by decide) (by decide)
      (by decide) (by decide) (by decide) (by decide) (by decide) (by decide) (by decide)⟩

/-! Lemmas for `CutList.get_previous_flags`. -/

theorem findIdx?_eq_none_of_all_false {p : α → Bool} :
    ∀ {l : List α} {i : ℕ}, (∀ x ∈ l, p x = false) → l.findIdx? p i = none := by
  intro l
  induction l with
  | nil => intro i _; rfl
  | cons a t ih =>
    intro i h
    rw [List.findIdx?]
    rw [h a (List.mem_cons_self a t)]
    simp only [Bool.false_eq_true, if_false]
    exact ih fun x hx => h x (List.mem_cons_of_mem a hx)

theorem testBit_fold_flags (cl : List (String × Cut)) (skip2 : List SkipEntry)
    (init : ℕ) (i : ℕ) :
    ((cl.foldl (fun mask nc =>
        if skip2.contains (SkipEntry.name nc.1) then mask else mask ||| nc.2.flag)
        init).testBit i)
      = (init.testBit i || cl.any fun nc =>
          !skip2.contains (SkipEntry.name nc.1) && nc.2.flag.testBit i) := by
  induction cl generalizing init with
  | nil => simp
  | cons hd tl ih =>
    rw [List.foldl_cons, List.any_cons, ih]
    by_cases h : SkipEntry.name hd.1 ∈ skip2 <;>
      simp [h, Nat.testBit_lor, Bool.or_assoc]

/-- Claim C6 (corrected) — `get_previous_flags` errors for every name other
than the five fixed strings in `skip_names` (in particular for every custom
cut's name), and for `"badday_cut"` it returns the union of the flags of
ALL cuts other than `uncert_est` and `badday_cut` — the custom cuts'
flags included. -/
theorem C6_get_previous_flags (cl : List (String × Cut)) :
    (∀ cname : String,
        cname ∉ ["uncert_est", "badday_cut", "controls_cut", "x2_cut", "uncert_cut"] →
        get_previous_flags cl cname = .error ()) ∧
    ∃ M : ℕ, get_previous_flags cl "badday_cut" = .ok M ∧
      ∀ i : ℕ, M.testBit i = true ↔
        ∃ nc ∈ cl, nc.1 ≠ "uncert_est" ∧ nc.1 ≠ "badday_cut" ∧ nc.2.flag.testBit i = true := by
  constructor
  · intro cname hn
    have hall : ∀ x ∈ skip_names_list cl, (x == SkipEntry.name cname) = false := by
      intro x hx
      simp only [skip_names_list, List.mem_append, List.mem_cons, List.mem_map,
        List.mem_singleton, List.not_mem_nil, or_false] at hx
      simp only [List.mem_cons, List.mem_singleton, List.not_mem_nil] at hn
      push_neg at hn
      rcases hx with ((rfl | rfl) | ⟨nc, -, rfl⟩) | (rfl | rfl | rfl)
      · rw [beq_eq_false_iff_ne]; intro heq; injection heq with h2; exact hn.1 h2.symm
      · rw [beq_eq_false_iff_ne]; intro heq; injection heq with h2; exact hn.2.1 h2.symm
      · rw [beq_eq_false_iff_ne]; intro heq; exact SkipEntry.noConfusion heq
      · rw [beq_eq_false_iff_ne]; intro heq; injection heq with h2; exact hn.2.2.1 h2.symm
      · rw [beq_eq_false_iff_ne]; intro heq; injection heq with h2; exact hn.2.2.2.1 h2.symm
      · rw [beq_eq_false_iff_ne]; intro heq; injection heq with h2; exact hn.2.2.2.2.1 h2.symm
    simp only [get_previous_flags, findIdx?_eq_none_of_all_false hall]
  · refine ⟨cl.foldl (fun mask nc =>
        if [SkipEntry.name "uncert_est",
            SkipEntry.name "badday_cut"].contains (SkipEntry.name nc.1)
        then mask else mask ||| nc.2.flag) 0, ?_, ?_⟩
    · have hfind : (skip_names_list cl).findIdx?
          (· == SkipEntry.name "badday_cut") = some 1 := by
        show (SkipEntry.name "uncert_est" :: SkipEntry.name "badday_cut" ::
          (((get_custom_cuts cl).map fun nc => SkipEntry.cutv nc.2) ++
            [SkipEntry.name "controls_cut", SkipEntry.name "x2_cut",
              SkipEntry.name "uncert_cut"])).findIdx?
            (· == SkipEntry.name "badday_cut") = some 1
        rw [List.findIdx?_cons]
        rw [show (SkipEntry.name "uncert_est" == SkipEntry.name "badday_cut") = false
          from by decide]
        simp only [Bool.false_eq_true, if_false]
        rw [List.findIdx?_cons]
        rw [show (SkipEntry.name "badday_cut" == SkipEntry.name "badday_cut") = true
          from by decide]
        simp
      simp only [get_previous_flags, hfind]
      rfl
    · intro i
      rw [testBit_fold_flags, Nat.zero_testBit, Bool.false_or, List.any_eq_true]
      apply exists_congr
      intro nc
      apply and_congr_right
      intro _
      rw [Bool.and_eq_true, Bool.not_eq_true']
      constructor
      · rintro ⟨hc, ht⟩
        have hm : SkipEntry.name nc.1 ∉
            [SkipEntry.name "uncert_est", SkipEntry.name "badday_cut"] := by
          simpa using hc
        simp only [List.mem_cons, List.not_mem_nil, or_false] at hm
        push_neg at hm
        exact ⟨fun h => hm.1 (by rw [h]), fun h => hm.2 (by rw [h]), ht⟩
      · rintro ⟨h1, h2, ht⟩
        refine ⟨?_, ht⟩
        have hm : SkipEntry.name nc.1 ∉
            [SkipEntry.name "uncert_est", SkipEntry.name "badday_cut"] := by
          intro hmem
          rcases List.mem_cons.mp hmem with heq | hmem2
          · injection heq with h3; exact h1 h3
          · rcases List.mem_cons.mp hmem2 with heq | hmem3
            · injection heq with h3; exact h2 h3
            · exact List.not_mem_nil _ hmem3
        simpa using hm


/-- Counterexample to claim C6 as stated: with one custom cut `"mycut"`
(flag `0x1000000`) registered, `get_previous_flags("badday_cut")` DOES
contain the custom cut's flag (the claim says it contains no custom cut's
flag). -/
theorem C6_counterexample :
    get_previous_flags
        [("uncert_cut", ⟨none, none, none, 0x2⟩), ("x2_cut", ⟨none, none, none, 0x10⟩),
         ("controls_cut", ⟨none, none, none, 0x400000⟩),
         ("badday_cut", ⟨none, none, none, 0x800000⟩),
         ("mycut", ⟨none, none, none, 0x1000000⟩)] "badday_cut" = .ok 0x1400012 ∧
    ((0x1400012 : ℕ) &&& 0x1000000 ≠ 0) := by
  constructor
  · with_unfolding_all rfl
  · decide

/-- Witness for the corrected C6 statement at a concrete cut list. -/
theorem C6_witness :
    ("mycut" ∉ ["uncert_est", "badday_cut", "controls_cut", "x2_cut", "uncert_cut"]) ∧
    get_previous_flags
        [("uncert_cut", ⟨none, none, none, 0x2⟩), ("mycut", ⟨none, none, none, 0x1000000⟩)]
        "mycut" = .error () ∧
    (∃ M : ℕ, get_previous_flags
        [("uncert_cut", ⟨none, none, none, 0x2⟩), ("mycut", ⟨none, none, none, 0x1000000⟩)]
        "badday_cut" = .ok M ∧
      ∀ i : ℕ, M.testBit i = true ↔
        ∃ nc ∈ [("uncert_cut", (⟨none, none, none, 0x2⟩ : Cut)),
                ("mycut", ⟨none, none, none, 0x1000000⟩)],
          nc.1 ≠ "uncert_est" ∧ nc.1 ≠ "badday_cut" ∧ nc.2.flag.testBit i = true) :=
  ⟨by decide,
    (C6_get_previous_flags
      [("uncert_cut", ⟨none, none, none, 0x2⟩),
       ("mycut", ⟨none, none, none, 0x1000000⟩)]).1 "mycut" (by decide),
    (C6_get_previous_flags
      [("uncert_cut", ⟨none, none, none, 0x2⟩),
       ("mycut", ⟨none, none, none, 0x1000000⟩)]).2⟩


/-! Theorems for `SimDetecTable.get_efficiency`. -/

/-- Claim C4 (code bug) — at the failing input, the sigma_sim selection is
non-empty (one matching record) but the valid-season restriction leaves no
record: the code divides by zero (uncaught `ZeroDivisionError`, `.error`)
instead of returning NaN.  The other zero-denominator case (no record
matches the requested `sigma_sim`) does return NaN (`.ok none`) as the
claim states. -/
theorem C4_zero_denominator :
    get_efficiency [⟨some 10, some 2, none, some 5⟩] 3 (some [(0, 1)]) (some 2) false
      = .error () ∧
    get_efficiency [⟨some 10, some 7, none, some 5⟩] 3 none (some 2) false = .ok none := by
  constructor
  · with_unfolding_all rfl
  · with_unfolding_all rfl

/-- Claim C5 — for a fixed table, sigma_sim selection and valid-season
restriction, whenever two thresholds `t1 ≤ t2` both yield a defined
efficiency, the efficiency at the larger threshold is no larger. -/
theorem C5_efficiency_antitone (rows : List SimDetecRow) (t1 t2 : ℚ)
    (seasons : Option (List (ℚ × ℚ))) (ssim : Option ℚ) (erup : Bool) (e1 e2 : ℚ)
    (h12 : t1 ≤ t2)
    (h1 : get_efficiency rows t1 seasons ssim erup = .ok (some e1))
    (h2 : get_efficiency rows t2 seasons ssim erup = .ok (some e2)) :
    e2 ≤ e1 := by
  unfold get_efficiency at h1 h2
  by_cases hempty : (sigma_sim_sel rows ssim erup).length < 1
  · rw [if_pos hempty] at h1
    exact absurd h1 (by simp)
  · rw [if_neg hempty] at h1 h2
    set ix2 := season_sel rows (sigma_sim_sel rows ssim erup) seasons with hix2
    by_cases hz : ix2.length = 0
    · rw [if_pos hz] at h1
      exact absurd h1 (by simp)
    · rw [if_neg hz] at h1 h2
      simp only [Except.ok.injEq, Option.some.injEq] at h1 h2
      rw [← h1, ← h2]
      have hd : (detected_sel rows ix2 t2).length ≤ (detected_sel rows ix2 t1).length := by
        unfold detected_sel
        rw [← List.countP_eq_length_filter, ← List.countP_eq_length_filter]
        apply List.countP_mono_left
        intro j _ hj
        rcases hrj : rows[j]? with _ | r
        · rw [hrj] at hj
          simp at hj
        · rw [hrj] at hj
          dsimp only at hj
          rcases hf : r.max_fom with _ | v
          · rw [hf] at hj
            simp at hj
          · rw [hf] at hj
            dsimp only
            rw [hf]
            simp only [decide_eq_true_eq] at hj ⊢
            exact le_trans h12 hj
      have hn : (0 : ℚ) < (ix2.length : ℚ) := by
        have : 0 < ix2.length := Nat.pos_of_ne_zero hz
        exact_mod_cast this
      apply mul_le_mul_of_nonneg_right _ (by norm_num : (0 : ℚ) ≤ 100)
      exact (div_le_div_iff_of_pos_right hn).mpr (by exact_mod_cast hd)

/-- Witness for C5 at a concrete table and thresholds 1 ≤ 4 (efficiencies
100 and 50). -/
theorem C5_witness :
    (1 : ℚ) ≤ 4 ∧
    get_efficiency [⟨some 1, some 2, none, some 5⟩, ⟨some 1, some 2, none, some 2⟩]
      1 none none false = .ok (some 100) ∧
    get_efficiency [⟨some 1, some 2, none, some 5⟩, ⟨some 1, some 2, none, some 2⟩]
      4 none none false = .ok (some 50) ∧
    (50 : ℚ) ≤ 100 :=
  ⟨of_decide_eq_true (by with_unfolding_all rfl),
    by with_unfolding_all rfl,
    by with_unfolding_all rfl,
    C5_efficiency_antitone
      [⟨some 1, some 2, none, some 5⟩, ⟨some 1, some 2, none, some 2⟩]
      1 4 none none false 100 50
      (of_decide_eq_true (by with_unfolding_all rfl))
      (by with_unfolding_all rfl)
      (by with_unfolding_all rfl)⟩


/-! Theorems for the rolling sum and the Monte-Carlo injection copy. -/

theorem mem_AandB {A B : List ℕ} {j : ℕ} : j ∈ AandB A B ↔ j ∈ A ∧ j ∈ B := by
  simp [AandB, List.mem_filter]

/-- Claim C9 — after `apply_rolling_sum` with bad-measurement flag `flag`,
the `SNR` column (written before the Gaussian-kernel rolling sum `conv` is
computed) is 0 at every row with a bit of `flag` set and `uJy/duJy` at
every unflagged row. -/
theorem C9_snr_column (conv : List ℚ → List ℚ) (flag : ℕ) (rows : List (Masked Flux))
    (hne : rows ≠ []) :
    ∃ snr snrsum snrsumnorm,
      apply_rolling_sum conv flag rows = .ok (snr, snrsum, snrsumnorm) ∧
      snr.length = rows.length ∧
      ∀ (j : ℕ) (r : Masked Flux), rows[j]? = some r →
        ((r.mask &&& flag ≠ 0 → snr[j]? = some 0) ∧
         (r.mask &&& flag = 0 → snr[j]? = some (r.data.uJy / r.data.duJy))) := by
  have hpos : ¬ (getindices rows).length < 1 := by
    simp only [getindices, List.length_range, Nat.lt_one_iff]
    intro h
    exact hne (List.length_eq_zero.mp h)
  unfold apply_rolling_sum
  rw [if_neg hpos]
  refine ⟨_, _, _, rfl, by simp, ?_⟩
  intro j r hr
  have hj : j < rows.length := by
    by_contra h
    rw [List.getElem?_eq_none (by omega)] at hr
    exact Option.noConfusion hr
  have hsnr : ((List.range rows.length).map fun j =>
      if (AandB (getindices rows) (ix_unmasked flag rows)).contains j then
        match rows[j]? with
        | some r => r.data.uJy / r.data.duJy
        | none => 0
      else 0)[j]? = some (
      if (AandB (getindices rows) (ix_unmasked flag rows)).contains j then
        match rows[j]? with
        | some r => r.data.uJy / r.data.duJy
        | none => 0
      else 0) := by
    rw [List.getElem?_map, List.getElem?_range hj]
    rfl
  constructor
  · intro hmask
    rw [hsnr]
    have hnotmem : j ∉ AandB (getindices rows) (ix_unmasked flag rows) := by
      intro hmem
      rcases mem_AandB.mp hmem with ⟨-, hum⟩
      rcases mem_ix_where.mp hum with ⟨r2, hr2, hp2⟩
      rw [hr] at hr2
      cases hr2
      rw [beq_iff_eq] at hp2
      exact hmask hp2
    simp [hnotmem]
  · intro hmask
    rw [hsnr]
    have hmem : j ∈ AandB (getindices rows) (ix_unmasked flag rows) := by
      refine mem_AandB.mpr ⟨by simpa [getindices] using hj, ?_⟩
      exact mem_ix_where.mpr ⟨r, hr, by rw [beq_iff_eq]; exact hmask⟩
    rw [show (AandB (getindices rows) (ix_unmasked flag rows)).contains j = true
      from by simpa using hmem]
    rw [if_pos rfl, hr]

/-- Witness for C9 at a concrete two-row light curve (one flagged row). -/
theorem C9_witness :
    ([⟨⟨6, 2⟩, 0⟩, ⟨⟨5, 1⟩, 8⟩] : List (Masked Flux)) ≠ [] ∧
    (∃ snr snrsum snrsumnorm,
      apply_rolling_sum id 8 [⟨⟨6, 2⟩, 0⟩, ⟨⟨5, 1⟩, 8⟩] = .ok (snr, snrsum, snrsumnorm) ∧
      snr.length = ([⟨⟨6, 2⟩, 0⟩, ⟨⟨5, 1⟩, 8⟩] : List (Masked Flux)).length ∧
      ∀ (j : ℕ) (r : Masked Flux),
        ([⟨⟨6, 2⟩, 0⟩, ⟨⟨5, 1⟩, 8⟩] : List (Masked Flux))[j]? = some r →
        ((r.mask &&& 8 ≠ 0 → snr[j]? = some 0) ∧
         (r.mask &&& 8 = 0 → snr[j]? = some (r.data.uJy / r.data.duJy)))) :=
  ⟨by decide, C9_snr_column id 8 [⟨⟨6, 2⟩, 0⟩, ⟨⟨5, 1⟩, 8⟩] (by decide)⟩

theorem snrsim_isSome_simulate_table (conv simflux : List ℚ → List ℚ) (flag : ℕ)
    (lc0 : List SimLcRow) :
    ∀ (j : ℕ) (r : SimLcRow), (simulate_table conv simflux flag lc0)[j]? = some r →
      r.snrsim.isSome = true := by
  intro j r h
  unfold simulate_table at h
  simp only [List.getElem?_mapIdx, Option.map_map] at h
  rcases hj : (clean_simulations lc0)[j]? with _ | b
  · rw [hj] at h
    simp at h
  · rw [hj] at h
    simp only [Option.map_some', Function.comp] at h
    injection h with h
    subst h
    split <;> rfl

/-- Claim C10 — `add_simulation` never mutates the stored light curves: the
control-index table (and every other table in the heap) is unchanged by any
call, and every row of the returned deep copy carries the freshly written
`SNRsim` simulation column. -/
theorem C10_add_simulation_frame (conv simflux : List ℚ → List ℚ)
    (st : SimDetecState) (control_index : ℕ) (peak_mjd : Option ℚ)
    (use_gaussian use_eruption : Bool) (peak_appmag : Option ℚ) (flag : ℕ) :
    (add_simulation conv simflux st control_index peak_mjd use_gaussian use_eruption
        peak_appmag flag).1.lcs = st.lcs ∧
    (∀ j : ℕ, j < st.heap.length →
      (add_simulation conv simflux st control_index peak_mjd use_gaussian use_eruption
        peak_appmag flag).1.heap[j]? = st.heap[j]?) ∧
    (∀ out : List SimLcRow,
      (add_simulation conv simflux st control_index peak_mjd use_gaussian use_eruption
        peak_appmag flag).2 = .ok out →
      ∀ (j : ℕ) (r : SimLcRow), out[j]? = some r → r.snrsim.isSome = true) := by
  unfold add_simulation
  by_cases hargs : add_simulation_args_ok peak_mjd use_gaussian use_eruption peak_appmag
  · rw [hargs]
    rw [if_neg (by simp : ¬((!true) = true))]
    cases hci : st.lcs[control_index]? with
    | none => exact ⟨rfl, fun j hj => rfl, fun out hout => by cases hout⟩
    | some addr =>
      dsimp only
      cases hha : st.heap[addr]? with
      | none => exact ⟨rfl, fun j hj => rfl, fun out hout => by cases hout⟩
      | some lc0 =>
        dsimp only
        by_cases hlen : (getindices (clean_simulations lc0)).length < 1
        · rw [if_pos hlen]
          refine ⟨rfl, ?_, fun out hout => by cases hout⟩
          intro j hj
          show (st.heap ++ [clean_simulations lc0])[j]? = st.heap[j]?
          rw [List.getElem?_append, if_pos hj]
        · rw [if_neg hlen]
          refine ⟨rfl, ?_, ?_⟩
          · intro j hj
            show (st.heap ++ [simulate_table conv simflux flag lc0])[j]? = st.heap[j]?
            rw [List.getElem?_append, if_pos hj]
          · intro out hout
            injection hout with hout
            subst hout
            exact snrsim_isSome_simulate_table conv simflux flag lc0
  · have hfalse : add_simulation_args_ok peak_mjd use_gaussian use_eruption peak_appmag
        = false := by
      cases h : add_simulation_args_ok peak_mjd use_gaussian use_eruption peak_appmag
      · rfl
      · exact absurd h hargs
    rw [hfalse]
    exact ⟨rfl, fun j hj => rfl, fun out hout => by cases hout⟩

/-- Witness for C10 at a concrete one-control state. -/
theorem C10_witness :
    (add_simulation id id ⟨[[⟨1, 5, 2, 0, none, none, none⟩]], [0]⟩
        0 (some 5) true false none 8).1.lcs = [0] ∧
    (0 : ℕ) < 1 ∧
    (add_simulation id id ⟨[[⟨1, 5, 2, 0, none, none, none⟩]], [0]⟩
        0 (some 5) true false none 8).1.heap[0]? = some [⟨1, 5, 2, 0, none, none, none⟩] :=
  ⟨(C10_add_simulation_frame id id ⟨[[⟨1, 5, 2, 0, none, none, none⟩]], [0]⟩
      0 (some 5) true false none 8).1,
   by decide,
   by
     have h := (C10_add_simulation_frame id id ⟨[[⟨1, 5, 2, 0, none, none, none⟩]], [0]⟩
       0 (some 5) true false none 8).2.1 0 (by decide)
     rw [h]
     rfl⟩

/-! Lemmas about MJD sorting and `verify_mjds`. -/

instance : IsTotal MRow fun a b => a.mjd ≤ b.mjd := ⟨fun a b => le_total a.mjd b.mjd⟩

instance : IsTrans MRow fun a b => a.mjd ≤ b.mjd := ⟨fun _ _ _ hab hbc => le_trans hab hbc⟩

theorem sort_by_mjd_perm (l : List MRow) : List.Perm (sort_by_mjd l) l :=
  List.perm_insertionSort _ l

theorem sorted_map_sort_by_mjd (l : List MRow) :
    List.Sorted (· ≤ ·) ((sort_by_mjd l).map fun r => r.mjd) :=
  List.Pairwise.map _ (fun _ _ hab => hab)
    (List.sorted_insertionSort (fun a b : MRow => a.mjd ≤ b.mjd) l)

theorem mem_setdiff1d {A B : List ℚ} {v : ℚ} : v ∈ setdiff1d A B ↔ v ∈ A ∧ v ∉ B := by
  simp [setdiff1d, List.mem_filter, (List.perm_insertionSort _ _).mem_iff, List.mem_dedup]

theorem nodup_setdiff1d (A B : List ℚ) : (setdiff1d A B).Nodup :=
  List.Nodup.filter _ ((List.perm_insertionSort _ _).nodup_iff.mpr A.nodup_dedup)

theorem countP_mjd_eq_one {l : List MRow} (h : (l.map fun r => r.mjd).Nodup) {m : ℚ}
    (hm : m ∈ l.map fun r => r.mjd) : (l.countP fun r => r.mjd == m) = 1 := by
  have h1 : (l.countP fun r => r.mjd == m) =
      ((l.map fun r => r.mjd).countP fun v => v == m) := by
    rw [List.countP_map]; rfl
  rw [h1, ← List.count_eq_countP]
  exact List.count_eq_one_of_mem h hm

theorem countP_mjd_eq_zero {l : List MRow} {m : ℚ}
    (h : m ∉ l.map fun r => r.mjd) : (l.countP fun r => r.mjd == m) = 0 := by
  rw [List.countP_eq_zero]
  intro r hr
  simp only [beq_iff_eq]
  intro he
  exact h (he ▸ List.mem_map_of_mem _ hr)

theorem map_mjd_filter (q : ℚ → Bool) (l : List MRow) :
    ((l.filter fun r => q r.mjd).map fun r => r.mjd) = (l.map fun r => r.mjd).filter q := by
  induction l with
  | nil => rfl
  | cons r t ih => by_cases h : q r.mjd <;> simp [h, ih]

/-- Specification of the per-control body of `verify_mjds`, assuming the SN
MJD column is duplicate-free: the alignment succeeds, the control's MJD
column becomes exactly the SN's sorted MJD column, MJDs only in the SN enter
as placeholder rows (`Mask = 0`, fluxes NaN), and every surviving row whose
MJD was already in the control is an original control row. -/
theorem verify_mjds_control_spec (snM : List ℚ) (ctl : List MRow)
    (hsnM : snM.Nodup) (hsorted : List.Sorted (· ≤ ·) snM)
    (hctl : (ctl.map fun r => r.mjd).Nodup) :
    ∃ ctl2 : List MRow,
      verify_mjds_control snM ctl = Except.ok ctl2 ∧
      (ctl2.map fun r => r.mjd) = snM ∧
      (∀ r ∈ ctl2, r.mjd ∉ (ctl.map fun r2 => r2.mjd) →
        r.mask = 0 ∧ r.uJy = none ∧ r.duJy = none) ∧
      (∀ r ∈ ctl2, r.mjd ∈ (ctl.map fun r2 => r2.mjd) → r ∈ ctl) := by
  have hctlperm : List.Perm ((sort_by_mjd ctl).map fun r => r.mjd) (ctl.map fun r => r.mjd) :=
    (sort_by_mjd_perm ctl).map _
  have hctlM : ((sort_by_mjd ctl).map fun r => r.mjd).Nodup := hctlperm.nodup_iff.mpr hctl
  by_cases heq : snM = ((sort_by_mjd ctl).map fun r => r.mjd)
  · refine ⟨sort_by_mjd ctl, ?_, heq.symm, ?_, ?_⟩
    · simp only [verify_mjds_control]
      rw [if_pos heq]
    · intro r hr hnot
      exact absurd (List.mem_map_of_mem _ ((sort_by_mjd_perm ctl).mem_iff.mp hr)) hnot
    · intro r hr _
      exact (sort_by_mjd_perm ctl).mem_iff.mp hr
  · simp only [verify_mjds_control]
    rw [if_neg heq]
    set ctlS := sort_by_mjd ctl with hctlSdef
    set ctlM := ctlS.map fun r => r.mjd with hctlMdef
    set oS := setdiff1d snM ctlM with hoSdef
    set oC := setdiff1d ctlM snM with hoCdef
    set news := oS.map fun m => (⟨m, 0, none, none⟩ : MRow) with hnewsdef
    set ctl2 := ctlS ++ news with hctl2def
    set K := ctl2.filter fun r => !oC.contains r.mjd with hKdef
    have hnewsM : (news.map fun r => r.mjd) = oS := by
      rw [hnewsdef, List.map_map]
      exact List.map_id oS
    have hctl2M : (ctl2.map fun r => r.mjd) = ctlM ++ oS := by
      rw [hctl2def, List.map_append, hnewsM, hctlMdef]
    have hguard : (oC.any fun m => (ctl2.countP fun r => r.mjd == m) != 1) = false := by
      rw [List.any_eq_false]
      intro m hm
      have hmem := mem_setdiff1d.mp (hoCdef ▸ hm)
      have h1 : (ctlS.countP fun r => r.mjd == m) = 1 :=
        countP_mjd_eq_one hctlM (hctlMdef ▸ hmem.1)
      have h2 : (news.countP fun r => r.mjd == m) = 0 := by
        apply countP_mjd_eq_zero
        rw [hnewsM]
        intro hin
        exact hmem.2 (mem_setdiff1d.mp hin).1
      rw [hctl2def, List.countP_append, h1, h2]
      simp
    rw [hguard]
    simp only [Bool.false_eq_true, if_false]
    have hKM : (K.map fun r => r.mjd) = (ctlM ++ oS).filter fun v => !oC.contains v := by
      rw [hKdef, map_mjd_filter (fun v => !oC.contains v) ctl2, hctl2M]
    have hKnodup : (K.map fun r => r.mjd).Nodup := by
      rw [hKM]
      apply List.Nodup.filter
      rw [List.nodup_append]
      refine ⟨hctlM, nodup_setdiff1d _ _, ?_⟩
      intro v hv1 hv2
      exact (mem_setdiff1d.mp hv2).2 hv1
    have hmemiff : ∀ v : ℚ, v ∈ (K.map fun r => r.mjd) ↔ v ∈ snM := by
      intro v
      rw [hKM]
      simp only [List.mem_filter, List.mem_append, Bool.not_eq_eq_eq_not, Bool.not_true,
        List.contains, List.elem_eq_mem, decide_eq_false_iff_not]
      constructor
      · rintro ⟨hv1 | hv2, hnc⟩
        · by_contra hns
          exact hnc (mem_setdiff1d.mpr ⟨hv1, hns⟩)
        · exact (mem_setdiff1d.mp hv2).1
      · intro hs
        refine ⟨?_, fun hc => (mem_setdiff1d.mp hc).2 hs⟩
        by_cases hvc : v ∈ ctlM
        · exact Or.inl hvc
        · exact Or.inr (mem_setdiff1d.mpr ⟨hs, hvc⟩)
    have hperm : List.Perm (K.map fun r => r.mjd) snM :=
      (List.perm_ext_iff_of_nodup hKnodup hsnM).mpr hmemiff
    have hcol : ((sort_by_mjd K).map fun r => r.mjd) = snM :=
      List.eq_of_perm_of_sorted (((sort_by_mjd_perm K).map _).trans hperm)
        (sorted_map_sort_by_mjd K) hsorted
    refine ⟨sort_by_mjd K, rfl, hcol, ?_, ?_⟩
    · intro r hr hnot
      have hrK : r ∈ K := (sort_by_mjd_perm K).mem_iff.mp hr
      have hr2 : r ∈ ctl2 := List.mem_of_mem_filter hrK
      rcases List.mem_append.mp (hctl2def ▸ hr2) with hc | hn
      · exact absurd (List.mem_map_of_mem _ ((sort_by_mjd_perm ctl).mem_iff.mp hc)) hnot
      · obtain ⟨m, _, rfl⟩ := List.mem_map.mp (hnewsdef ▸ hn)
        exact ⟨rfl, rfl, rfl⟩
    · intro r hr hyes
      have hrK : r ∈ K := (sort_by_mjd_perm K).mem_iff.mp hr
      have hr2 : r ∈ ctl2 := List.mem_of_mem_filter hrK
      rcases List.mem_append.mp (hctl2def ▸ hr2) with hc | hn
      · exact (sort_by_mjd_perm ctl).mem_iff.mp hc
      · obtain ⟨m, hmoS, rfl⟩ := List.mem_map.mp (hnewsdef ▸ hn)
        have : m ∉ ctlM := (mem_setdiff1d.mp (hoSdef ▸ hmoS)).2
        exact absurd (hctlperm.mem_iff.mpr hyes) this

/-- C3 is false as stated: with a duplicated MJD in the transient light
curve, `verify_mjds` returns successfully but leaves the control's MJD
column different from the transient's sorted MJD column (`setdiff1d`
deduplicates, so the duplicated MJD is never filled into the control), and
the `calculate_control_stats` guard then fails. -/
theorem C3_counterexample :
    (verify_mjds [⟨1, 0, some 2, some 3⟩, ⟨1, 0, some 4, some 5⟩]
        [⟨1, 5, some 6, some 7⟩]).2 = Except.ok [⟨1, 5, some 6, some 7⟩] ∧
    ¬ (([(⟨1, 5, some 6, some 7⟩ : MRow)].map fun r => r.mjd) =
        ((verify_mjds [⟨1, 0, some 2, some 3⟩, ⟨1, 0, some 4, some 5⟩]
          [⟨1, 5, some 6, some 7⟩]).1.map fun r => r.mjd)) ∧
    control_stats_mjd_check
      (verify_mjds [⟨1, 0, some 2, some 3⟩, ⟨1, 0, some 4, some 5⟩]
        [⟨1, 5, some 6, some 7⟩]).1 [⟨1, 5, some 6, some 7⟩] = false :=
  ⟨by with_unfolding_all rfl, by decide, by decide⟩

/-- C3 (amended): the claim holds once both MJD columns are duplicate-free.
After `Supernova.verify_mjds`, the control light curve's MJD column is an
identical, sorted sequence equal to the transient's sorted MJD column; MJDs
only in the transient were filled in as placeholder rows with `Mask = 0` and
missing values; MJDs only in the control were removed; and the
`calculate_control_stats` guard passes.  (With duplicated MJDs the code can
instead return misaligned light curves: see the counterexample.) -/
theorem C3_verify_mjds (sn ctl : List MRow)
    (hsn : (sn.map fun r => r.mjd).Nodup) (hctl : (ctl.map fun r => r.mjd).Nodup) :
    ∃ ctl2 : List MRow,
      verify_mjds sn ctl = (sort_by_mjd sn, Except.ok ctl2) ∧
      (ctl2.map fun r => r.mjd) = ((sort_by_mjd sn).map fun r => r.mjd) ∧
      List.Sorted (· ≤ ·) (ctl2.map fun r => r.mjd) ∧
      (∀ r ∈ ctl2, r.mjd ∉ (ctl.map fun r2 => r2.mjd) →
        r.mask = 0 ∧ r.uJy = none ∧ r.duJy = none) ∧
      (∀ r ∈ ctl2, r.mjd ∈ (ctl.map fun r2 => r2.mjd) → r ∈ ctl) ∧
      control_stats_mjd_check (sort_by_mjd sn) ctl2 = true := by
  have hsnM : ((sort_by_mjd sn).map fun r => r.mjd).Nodup :=
    ((sort_by_mjd_perm sn).map _).nodup_iff.mpr hsn
  have hsorted := sorted_map_sort_by_mjd sn
  obtain ⟨ctl2, hok, hcol, hplace, hpres⟩ :=
    verify_mjds_control_spec ((sort_by_mjd sn).map fun r => r.mjd) ctl hsnM hsorted hctl
  refine ⟨ctl2, ?_, hcol, ?_, hplace, hpres, ?_⟩
  · simp only [verify_mjds]
    rw [hok]
  · rw [hcol]
    exact hsorted
  · have hlen : ctl2.length = (sort_by_mjd sn).length := by
      have := congrArg List.length hcol
      simpa using this
    simp [control_stats_mjd_check, hcol, hlen]

/-- Closed instance of `C3_verify_mjds` on a concrete transient/control
pair with duplicate-free MJD columns. -/
theorem C3_witness :
    (([⟨2, 0, some 1, some 1⟩, ⟨1, 0, some 2, some 2⟩] : List MRow).map fun r => r.mjd).Nodup ∧
    (([⟨3, 5, some 7, some 8⟩] : List MRow).map fun r => r.mjd).Nodup ∧
    ∃ ctl2 : List MRow,
      verify_mjds [⟨2, 0, some 1, some 1⟩, ⟨1, 0, some 2, some 2⟩] [⟨3, 5, some 7, some 8⟩] =
        (sort_by_mjd [⟨2, 0, some 1, some 1⟩, ⟨1, 0, some 2, some 2⟩], Except.ok ctl2) ∧
      (ctl2.map fun r => r.mjd) =
        ((sort_by_mjd [⟨2, 0, some 1, some 1⟩, ⟨1, 0, some 2, some 2⟩]).map fun r => r.mjd) ∧
      List.Sorted (· ≤ ·) (ctl2.map fun r => r.mjd) ∧
      (∀ r ∈ ctl2, r.mjd ∉ (([⟨3, 5, some 7, some 8⟩] : List MRow).map fun r2 => r2.mjd) →
        r.mask = 0 ∧ r.uJy = none ∧ r.duJy = none) ∧
      (∀ r ∈ ctl2, r.mjd ∈ (([⟨3, 5, some 7, some 8⟩] : List MRow).map fun r2 => r2.mjd) →
        r ∈ ([⟨3, 5, some 7, some 8⟩] : List MRow)) ∧
      control_stats_mjd_check (sort_by_mjd [⟨2, 0, some 1, some 1⟩, ⟨1, 0, some 2, some 2⟩])
        ctl2 = true :=
  ⟨by decide, by decide,
    C3_verify_mjds [⟨2, 0, some 1, some 1⟩, ⟨1, 0, some 2, some 2⟩]
      [⟨3, 5, some 7, some 8⟩] (by decide) (by decide)⟩


theorem lor_land_disjoint {f g : ℕ} (m : ℕ) (h : f &&& g = 0) :
    (m ||| f) &&& g = m &&& g := by
  apply Nat.eq_of_testBit_eq
  intro i
  have hi := congrArg (Nat.testBit · i) h
  simp only [Nat.testBit_land, Nat.zero_testBit] at hi
  simp only [Nat.testBit_land, Nat.testBit_lor]
  cases hf : f.testBit i <;> cases hg : g.testBit i <;> cases m.testBit i <;> simp_all

theorem mask_land_update_mask_column (flag pf : ℕ) (ix : List ℕ)
    (rows : List (Masked α)) (h : flag &&& pf = 0) :
    (update_mask_column flag ix false rows).map (fun r => (r.data, r.mask &&& pf)) =
      rows.map fun r => (r.data, r.mask &&& pf) := by
  apply List.ext_getElem?
  intro j
  simp only [List.getElem?_map, getElem?_update_mask_column]
  cases rows[j]? with
  | none => rfl
  | some r =>
    by_cases hj : ix.contains j <;>
      simp only [hj, if_true, if_false, Option.map_some', Option.some.injEq] <;>
      simp [lor_land_disjoint r.mask h]

theorem average_bin_state (cut : BaddayCut) (pf : ℕ) (s : ℚ)
    (lc : List (Masked LRow)) (b : ℚ)
    (h1 : cut.flag &&& pf = 0) (h2 : cut.ixclip_flag &&& pf = 0)
    (h3 : cut.smallnum_flag &&& pf = 0) :
    (average_bin cut pf s lc b).2.map (fun r => (r.data, r.mask &&& pf)) =
      lc.map fun r => (r.data, r.mask &&& pf) := by
  unfold average_bin
  dsimp only
  split
  · rfl
  split
  · exact mask_land_update_mask_column _ _ _ _ h1
  split
  · exact mask_land_update_mask_column _ _ _ _ h1
  split
  · rw [mask_land_update_mask_column _ _ _ _ h3]
    split
    · exact mask_land_update_mask_column _ _ _ _ h2
    · rfl
  split
  · rw [mask_land_update_mask_column _ _ _ _ h1]
    split
    · exact mask_land_update_mask_column _ _ _ _ h2
    · rfl
  · split
    · exact mask_land_update_mask_column _ _ _ _ h2
    · rfl

theorem bin_range_ix_congr {s : ℚ} {lc lc' : List (Masked LRow)} {b : ℚ}
    (h : lc.map Masked.data = lc'.map Masked.data) :
    bin_range_ix s lc b = bin_range_ix s lc' b := by
  have hlen : lc.length = lc'.length := by
    have h2 := congrArg List.length h
    simpa using h2
  unfold bin_range_ix ix_inrange ix_where
  rw [hlen]
  apply List.filter_congr
  intro j _
  have hjd : lc[j]?.map Masked.data = lc'[j]?.map Masked.data := by
    have h2 := congrArg (fun l => l[j]?) h
    simpa using h2
  rcases e1 : lc[j]? with _ | r <;> rcases e2 : lc'[j]? with _ | r' <;>
    rw [e1, e2] at hjd <;> simp_all

theorem data_of_pair_map {pf : ℕ} {lc lc' : List (Masked LRow)}
    (h : lc.map (fun r => (r.data, r.mask &&& pf)) =
         lc'.map fun r => (r.data, r.mask &&& pf)) :
    lc.map Masked.data = lc'.map Masked.data := by
  have h2 := congrArg (List.map Prod.fst) h
  simpa [List.map_map, Function.comp] using h2

theorem bin_good_ix_congr {pf : ℕ} {s : ℚ} {lc lc' : List (Masked LRow)} {b : ℚ}
    (h : lc.map (fun r => (r.data, r.mask &&& pf)) =
         lc'.map fun r => (r.data, r.mask &&& pf)) :
    bin_good_ix pf s lc b = bin_good_ix pf s lc' b := by
  unfold bin_good_ix
  rw [bin_range_ix_congr (data_of_pair_map h)]
  apply List.filter_congr
  intro i _
  have hi := congrArg (fun l => l[i]?) h
  simp only [List.getElem?_map] at hi
  rcases e1 : lc[i]? with _ | r <;> rcases e2 : lc'[i]? with _ | r' <;>
    rw [e1, e2] at hi <;> simp_all

theorem average_go_get? (cut : BaddayCut) (pf : ℕ) (s : ℚ)
    (h1 : cut.flag &&& pf = 0) (h2 : cut.ixclip_flag &&& pf = 0)
    (h3 : cut.smallnum_flag &&& pf = 0) (bs : List ℚ) :
    ∀ (lc : List (Masked LRow)) (j : ℕ) (b : ℚ),
      bs[j]? = some b →
      ∃ lc' : List (Masked LRow),
        lc'.map (fun r => (r.data, r.mask &&& pf)) =
          lc.map (fun r => (r.data, r.mask &&& pf)) ∧
        (average_go cut pf s lc bs).1[j]? = some (average_bin cut pf s lc' b).1 := by
  induction bs with
  | nil => intro lc j b hb; simp at hb
  | cons b0 bs ih =>
    intro lc j b hb
    cases j with
    | zero =>
      simp only [List.getElem?_cons_zero, Option.some.injEq] at hb
      subst hb
      exact ⟨lc, rfl, by simp [average_go]⟩
    | succ j =>
      simp only [List.getElem?_cons_succ] at hb
      obtain ⟨lc', hpres, hget⟩ := ih (average_bin cut pf s lc b0).2 j b hb
      refine ⟨lc', ?_, ?_⟩
      · rw [hpres]
        exact average_bin_state cut pf s lc b0 h1 h2 h3
      · simpa [average_go] using hget

theorem calc_sel_ne_nil {rows : List (ℚ × ℚ)} {indices : List ℕ}
    (h : indices ≠ []) (hv : ∀ i ∈ indices, i < rows.length) :
    calc_sel rows indices ≠ [] := by
  cases indices with
  | nil => exact absurd rfl h
  | cons i is =>
    have hi : i < rows.length := hv i (by simp)
    simp only [calc_sel, List.filterMap_cons]
    rw [List.getElem?_eq_getElem hi]
    simp

theorem calcaverage_props (rows : List (ℚ × ℚ)) (indices : List ℕ)
    (Nsigma : ℚ) (mf : Bool) (h : calc_sel rows indices ≠ []) :
    ¬((calcaverage_sigmacutloop rows indices Nsigma mf).mean = none ∨
      (calcaverage_sigmacutloop rows indices Nsigma mf).ix_good.length < 1) := by
  unfold calcaverage_sigmacutloop
  rw [if_neg h]
  unfold calc_core
  dsimp only
  rintro (hmean | hlen)
  · exact Option.noConfusion hmean
  · rw [List.length_map] at hlen
    split at hlen
    · have hpos := List.length_pos.mpr h
      omega
    · split at hlen
      · have hpos := List.length_pos.mpr h
        omega
      · next hne =>
          have hpos := List.length_pos.mpr hne
          omega

/-- C8: in `LightCurve.average`, an MJD bin containing zero measurement
rows yields an output row with no flux (`uJy = none`), no averaged MJD, the
bin midpoint recorded in `MJDbin`, and the day-binning cut flag set in its
`Mask` (assuming, as in the pipeline, that the cut's flags are disjoint
from `previous_flags`). -/
theorem C8_empty_bin (cut : BaddayCut) (pf : ℕ) (s : ℚ) (lc : List (Masked LRow))
    (j : ℕ) (b : ℚ)
    (h1 : cut.flag &&& pf = 0) (h2 : cut.ixclip_flag &&& pf = 0)
    (h3 : cut.smallnum_flag &&& pf = 0)
    (hb : (binStarts lc s)[j]? = some b)
    (hempty : bin_range_ix s lc b = []) :
    (average cut pf s lc).1[j]? =
      some (⟨none, b + (1 / 2) * s, none, none, none, none, 0, 0, 0, cut.flag⟩ : ARow) := by
  obtain ⟨lc', hpres, hget⟩ := average_go_get? cut pf s h1 h2 h3 (binStarts lc s) lc j b hb
  have hstep : (average cut pf s lc).1[j]? = some (average_bin cut pf s lc' b).1 := hget
  rw [hstep]
  have hrange' : bin_range_ix s lc' b = [] := by
    rw [bin_range_ix_congr (data_of_pair_map hpres)]
    exact hempty
  have hgood' : bin_good_ix pf s lc' b = [] := by
    unfold bin_good_ix
    rw [hrange']
    rfl
  simp [average_bin, hrange', hgood', Nat.zero_or]

/-- C7: in `LightCurve.average`, an MJD bin with at least one but fewer
than three rows not excluded by `previous_flags` yields an output row whose
`Mask` has the small-number flag (the cut's `smallnum_flag`) set
(assuming, as in the pipeline, that the cut's flags are disjoint from
`previous_flags`). -/
theorem C7_smallnum_flag (cut : BaddayCut) (pf : ℕ) (s : ℚ) (lc : List (Masked LRow))
    (j : ℕ) (b : ℚ)
    (h1 : cut.flag &&& pf = 0) (h2 : cut.ixclip_flag &&& pf = 0)
    (h3 : cut.smallnum_flag &&& pf = 0)
    (hb : (binStarts lc s)[j]? = some b)
    (hlo : 1 ≤ (bin_good_ix pf s lc b).length)
    (hhi : (bin_good_ix pf s lc b).length < 3) :
    ∃ row : ARow, (average cut pf s lc).1[j]? = some row ∧
      row.mask &&& cut.smallnum_flag = cut.smallnum_flag := by
  obtain ⟨lc', hpres, hget⟩ := average_go_get? cut pf s h1 h2 h3 (binStarts lc s) lc j b hb
  have hstep : (average cut pf s lc).1[j]? = some (average_bin cut pf s lc' b).1 := hget
  have hlen : lc.length = lc'.length := by
    have h4 := congrArg List.length hpres
    simpa using h4.symm
  have hgood' : bin_good_ix pf s lc' b = bin_good_ix pf s lc b := by
    rw [bin_good_ix_congr hpres]
  have hrange' : bin_range_ix s lc' b = bin_range_ix s lc b :=
    bin_range_ix_congr (data_of_pair_map hpres)
  have hsub : (bin_good_ix pf s lc b).length ≤ (bin_range_ix s lc b).length := by
    unfold bin_good_ix
    exact List.length_filter_le _ _
  have hvalid : ∀ i ∈ bin_good_ix pf s lc' b, i < lc'.length := by
    intro i hi
    rw [hgood'] at hi
    have hi2 : i ∈ bin_range_ix s lc b := List.mem_of_mem_filter hi
    unfold bin_range_ix ix_inrange at hi2
    obtain ⟨r, hr, _⟩ := mem_ix_where.mp hi2
    have hilt : i < lc.length := by
      by_contra hge
      rw [List.getElem?_eq_none (by omega)] at hr
      exact Option.noConfusion hr
    omega
  have hne : bin_good_ix pf s lc' b ≠ [] := by
    rw [hgood']
    intro he
    rw [he] at hlo
    simp at hlo
  have hsel : calc_sel (lc'.map fun r => (r.data.uJy, r.data.duJy))
      (bin_good_ix pf s lc' b) ≠ [] := by
    apply calc_sel_ne_nil hne
    intro i hi
    rw [List.length_map]
    exact hvalid i hi
  have hdead := calcaverage_props (lc'.map fun r => (r.data.uJy, r.data.duJy))
    (bin_good_ix pf s lc' b) 3 true hsel
  have hc1 : ¬ ((bin_range_ix s lc' b).length < 1) := by
    rw [hrange']
    omega
  have hc2 : ¬ ((bin_good_ix pf s lc' b).length < 1) := by
    rw [hgood']
    omega
  have hc3 : (bin_good_ix pf s lc' b).length < 3 := by
    rw [hgood']
    omega
  refine ⟨(average_bin cut pf s lc' b).1, hstep, ?_⟩
  unfold average_bin
  rw [if_neg hc1, if_neg hc2, if_neg hdead, if_pos hc3]
  simp [Nat.zero_or]

/-- Closed instance of `C8_empty_bin`: a two-point light curve (MJD 0 and
2) binned with width 1 has an empty bin at MJD 1. -/
theorem C8_witness :
    ((2 : ℕ) &&& 1 = 0) ∧ ((4 : ℕ) &&& 1 = 0) ∧ ((8 : ℕ) &&& 1 = 0) ∧
    (binStarts [⟨⟨0, 5, 1⟩, 0⟩, ⟨⟨2, 6, 1⟩, 0⟩] 1)[1]? = some 1 ∧
    bin_range_ix 1 [⟨⟨0, 5, 1⟩, 0⟩, ⟨⟨2, 6, 1⟩, 0⟩] 1 = [] ∧
    (average ⟨2, 4, 8, 0, 0, 0⟩ 1 1 [⟨⟨0, 5, 1⟩, 0⟩, ⟨⟨2, 6, 1⟩, 0⟩]).1[1]? =
      some (⟨none, 1 + (1 / 2) * 1, none, none, none, none, 0, 0, 0, 2⟩ : ARow) :=
  ⟨by decide, by decide, by decide,
   by with_unfolding_all rfl,
   by with_unfolding_all rfl,
   C8_empty_bin ⟨2, 4, 8, 0, 0, 0⟩ 1 1 [⟨⟨0, 5, 1⟩, 0⟩, ⟨⟨2, 6, 1⟩, 0⟩] 1 1
     (by decide) (by decide) (by decide)
     (by with_unfolding_all rfl) (by with_unfolding_all rfl)⟩

/-- Closed instance of `C7_smallnum_flag`: a single-point light curve
binned with width 1 has exactly one good row in its first bin. -/
theorem C7_witness :
    ((2 : ℕ) &&& 1 = 0) ∧ ((4 : ℕ) &&& 1 = 0) ∧ ((8 : ℕ) &&& 1 = 0) ∧
    (binStarts [⟨⟨0, 5, 1⟩, 0⟩] 1)[0]? = some 0 ∧
    1 ≤ (bin_good_ix 1 1 [⟨⟨0, 5, 1⟩, 0⟩] 0).length ∧
    (bin_good_ix 1 1 [⟨⟨0, 5, 1⟩, 0⟩] 0).length < 3 ∧
    ∃ row : ARow, (average ⟨2, 4, 8, 0, 0, 0⟩ 1 1 [⟨⟨0, 5, 1⟩, 0⟩]).1[0]? = some row ∧
      row.mask &&& 8 = 8 :=
  ⟨by decide, by decide, by decide,
   by with_unfolding_all rfl,
   of_decide_eq_true (by with_unfolding_all rfl),
   of_decide_eq_true (by with_unfolding_all rfl),
   C7_smallnum_flag ⟨2, 4, 8, 0, 0, 0⟩ 1 1 [⟨⟨0, 5, 1⟩, 0⟩] 0 0
     (by decide) (by decide) (by decide)
     (by with_unfolding_all rfl)
     (of_decide_eq_true (by with_unfolding_all rfl))
     (of_decide_eq_true (by with_unfolding_all rfl))⟩

end AtlasLC
